import Mathlib

/-!
# Passkey demo server: session lifecycle and credential store

A shallow embedding of `server/storage.go` and `server/handlers.go`.

Modelling conventions.

* A Go `string` and a Go `[]byte` are both finite byte sequences, so both are
  `List Byte` with `Byte = Fin 256`; the conversions `[]byte(s)` and
  `string(b)` are the identity on the contents.
* `Storage.users` is a Go `map[string]*User`.  Every pointer that ever enters
  the map through the operations embedded here is freshly allocated by
  `CreateUser`, so no two keys share a `User` object and the map is modelled by
  value, as a function from keys to optional records.  A write through the
  stored pointer (`AddCredential`, `UpdateCredential`) is a functional update
  of the entry at that key.  The mutex only matters under concurrency and is
  not represented.
* The WebAuthn library (`h.webAuthn`) is external.  Its four entry points are
  the fields of `Engine`; each handler receives the engine it talks to as an
  argument, so two successive requests may see different engine behaviour
  (fresh challenges).  Every handler also reports the list of engine calls it
  performed.
* An HTTP request is reduced to what the handlers read from it: the
  `username` query parameter, the outcome of JSON-decoding the body into
  `{username}`, and the raw payload handed to the engine.
* `log.Printf` output is not represented.
-/

namespace PasskeyDemo

/-- One octet. -/
abbrev Byte := Fin 256

/-- Go `string`: an immutable byte sequence. -/
abbrev GoString := List Byte

/-- The library type `webauthn.Credential`, reduced to the credential id, the
public-key payload and the authenticator's signature counter. -/
structure Credential where
  ID : List Byte
  PublicKey : List Byte
  SignCount : Nat
  deriving DecidableEq, Repr

/-- The library type `webauthn.SessionData`: the pending challenge together
with the user handle and the allowed credential ids. -/
structure SessionData where
  Challenge : GoString
  UserID : List Byte
  AllowedCredentialIDs : List (List Byte)
  deriving DecidableEq, Repr

/-- The challenge payload (`protocol.CredentialCreation` or
`protocol.CredentialAssertion`) that a Begin handler sends back. -/
structure ChallengeOptions where
  Challenge : GoString
  deriving DecidableEq, Repr

/-- `type User struct` of storage.go. -/
structure User where
  ID : List Byte
  Name : GoString
  DisplayName : GoString
  Credentials : List Credential
  deriving DecidableEq, Repr

/-- `type Storage struct` of storage.go, without the mutex. -/
structure Storage where
  users : GoString → Option User
  sessions : GoString → Option SessionData

/-- `NewStorage`: both maps empty. -/
def NewStorage : Storage :=
  { users := fun _ => none, sessions := fun _ => none }

/-- `Storage.GetUser`: the pair `(user, exists)` as an option. -/
def GetUser (s : Storage) (username : GoString) : Option User :=
  s.users username

/-- `Storage.CreateUser`: builds the record, stores it under `username`
(overwriting whatever was there) and returns it. -/
def CreateUser (s : Storage) (username : GoString) (userID : List Byte) : User × Storage :=
  let user : User :=
    { ID := userID, Name := username, DisplayName := username, Credentials := [] }
  (user, { s with users := fun k => if k = username then some user else s.users k })

/-- `Storage.SaveSession`: `s.sessions[username] = session`. -/
def SaveSession (s : Storage) (username : GoString) (session : SessionData) : Storage :=
  { s with sessions := fun k => if k = username then some session else s.sessions k }

/-- `Storage.GetSession`: the pair `(session, exists)` as an option. -/
def GetSession (s : Storage) (username : GoString) : Option SessionData :=
  s.sessions username

/-- `Storage.DeleteSession`: `delete(s.sessions, username)`. -/
def DeleteSession (s : Storage) (username : GoString) : Storage :=
  { s with sessions := fun k => if k = username then none else s.sessions k }

/-- `Storage.AddCredential`: the returned `error` (`none` is `nil`) and the
storage afterwards. -/
def AddCredential (s : Storage) (username : GoString) (credential : Credential) :
    Option String × Storage :=
  match s.users username with
  | none => (some "User not found", s)
  | some user =>
    let user1 : User := { user with Credentials := user.Credentials ++ [credential] }
    (none, { s with users := fun k => if k = username then some user1 else s.users k })

/-- The `for i, cred := range user.Credentials` loop of `UpdateCredential`:
overwrite the first slot whose id equals `credential.ID`; `none` when the loop
falls through. -/
def updateLoop (credential : Credential) : List Credential → Option (List Credential)
  | [] => none
  | cred :: rest =>
    if cred.ID = credential.ID then some (credential :: rest)
    else (updateLoop credential rest).map (fun r => cred :: r)

/-- `Storage.UpdateCredential`: the returned `error` (`none` is `nil`) and the
storage afterwards. -/
def UpdateCredential (s : Storage) (username : GoString) (credential : Credential) :
    Option String × Storage :=
  match s.users username with
  | none => (some "User not found", s)
  | some user =>
    match updateLoop credential user.Credentials with
    | some creds =>
      let user1 : User := { user with Credentials := creds }
      (none, { s with users := fun k => if k = username then some user1 else s.users k })
    | none => (some "Credential not found", s)

/-- What the handlers read from an `*http.Request`. -/
structure Request where
  /-- The value of `r.URL.Query().Get("username")`. -/
  query : GoString
  /-- The `Username` field after `json.NewDecoder(r.Body).Decode(&req)`;
  `none` when decoding fails. -/
  body : Option GoString
  /-- The raw body, parsed by the engine in the Finish handlers. -/
  payload : List Byte
  deriving DecidableEq, Repr

/-- The four entry points of `*webauthn.WebAuthn` used by the handlers.  An
`Except.error` carries the text of the Go `error`. -/
structure Engine where
  BeginRegistration : User → Except String (ChallengeOptions × SessionData)
  FinishRegistration : User → SessionData → Request → Except String Credential
  BeginLogin : User → Except String (ChallengeOptions × SessionData)
  FinishLogin : User → SessionData → Request → Except String Credential

/-- One call made to the engine, with the arguments it received. -/
inductive EngineCall where
  | BeginRegistration (user : User)
  | FinishRegistration (user : User) (session : SessionData)
  | BeginLogin (user : User)
  | FinishLogin (user : User) (session : SessionData)
  deriving DecidableEq, Repr

/-- `http.StatusBadRequest`. -/
def StatusBadRequest : Nat := 400

/-- `http.StatusNotFound`. -/
def StatusNotFound : Nat := 404

/-- `http.StatusInternalServerError`. -/
def StatusInternalServerError : Nat := 500

/-- What a handler writes to the `http.ResponseWriter`. -/
inductive Response where
  /-- `http.Error(w, msg, code)`. -/
  | httpError (msg : String) (code : Nat)
  /-- `json.NewEncoder(w).Encode(options)`. -/
  | challenge (options : ChallengeOptions)
  /-- The success object of `RegisterFinish`. -/
  | registrationSuccessful
  /-- The success object of `LoginFinish`, with its `username` and `userId`. -/
  | loginSuccessful (username : GoString) (userId : List Byte)
  deriving DecidableEq, Repr

/-- Everything observable after a handler has run. -/
structure Outcome where
  response : Response
  storage : Storage
  calls : List EngineCall

/-- `Handlers.RegisterBegin`. -/
def RegisterBegin (webAuthn : Engine) (storage : Storage) (r : Request) : Outcome :=
  match r.body with
  | none => ⟨.httpError "Invalid request" StatusBadRequest, storage, []⟩
  | some username =>
    if username = [] then
      ⟨.httpError "Username is required" StatusBadRequest, storage, []⟩
    else
      let (user, storage1) :=
        match GetUser storage username with
        | some user => (user, storage)
        | none => CreateUser storage username username
      match webAuthn.BeginRegistration user with
      | .error _ =>
        ⟨.httpError "Failed to begin registration" StatusInternalServerError, storage1,
          [.BeginRegistration user]⟩
      | .ok (options, session) =>
        ⟨.challenge options, SaveSession storage1 username session, [.BeginRegistration user]⟩

/-- The username of a Finish request: the query parameter, or the decoded
body field when the query parameter is empty and the body decodes. -/
def finishUsername (r : Request) : GoString :=
  if r.query = [] then
    match r.body with
    | some username => username
    | none => []
  else r.query

/-- `Handlers.RegisterFinish`. -/
def RegisterFinish (webAuthn : Engine) (storage : Storage) (r : Request) : Outcome :=
  let username := finishUsername r
  if username = [] then
    ⟨.httpError "Username is required" StatusBadRequest, storage, []⟩
  else
    match GetUser storage username with
    | none => ⟨.httpError "User not found" StatusNotFound, storage, []⟩
    | some user =>
      match GetSession storage username with
      | none => ⟨.httpError "Session not found" StatusBadRequest, storage, []⟩
      | some session =>
        match webAuthn.FinishRegistration user session r with
        | .error err =>
          ⟨.httpError ("Failed to finish registration: " ++ err) StatusBadRequest, storage,
            [.FinishRegistration user session]⟩
        | .ok credential =>
          match AddCredential storage username credential with
          | (some _, storage1) =>
            ⟨.httpError "Failed to save credential" StatusInternalServerError, storage1,
              [.FinishRegistration user session]⟩
          | (none, storage1) =>
            ⟨.registrationSuccessful, DeleteSession storage1 username,
              [.FinishRegistration user session]⟩

/-- `Handlers.LoginBegin`. -/
def LoginBegin (webAuthn : Engine) (storage : Storage) (r : Request) : Outcome :=
  match r.body with
  | none => ⟨.httpError "Invalid request" StatusBadRequest, storage, []⟩
  | some username =>
    if username = [] then
      ⟨.httpError "Username is required" StatusBadRequest, storage, []⟩
    else
      match GetUser storage username with
      | none => ⟨.httpError "User not found" StatusNotFound, storage, []⟩
      | some user =>
        if user.Credentials.length = 0 then
          ⟨.httpError "No credentials registered for this user" StatusBadRequest, storage, []⟩
        else
          match webAuthn.BeginLogin user with
          | .error _ =>
            ⟨.httpError "Failed to begin login" StatusInternalServerError, storage,
              [.BeginLogin user]⟩
          | .ok (options, session) =>
            ⟨.challenge options, SaveSession storage username session, [.BeginLogin user]⟩

/-- `Handlers.LoginFinish`.  The `userId` of the success object is read
through the pointer obtained from `GetUser`; `UpdateCredential` writes only the
credential slots of that object, so the id is the one read at lookup. -/
def LoginFinish (webAuthn : Engine) (storage : Storage) (r : Request) : Outcome :=
  let username := finishUsername r
  if username = [] then
    ⟨.httpError "Username is required" StatusBadRequest, storage, []⟩
  else
    match GetUser storage username with
    | none => ⟨.httpError "User not found" StatusNotFound, storage, []⟩
    | some user =>
      match GetSession storage username with
      | none => ⟨.httpError "Session not found" StatusBadRequest, storage, []⟩
      | some session =>
        match webAuthn.FinishLogin user session r with
        | .error err =>
          ⟨.httpError ("Failed to finish login: " ++ err) StatusBadRequest, storage,
            [.FinishLogin user session]⟩
        | .ok credential =>
          let storage1 := (UpdateCredential storage username credential).2
          ⟨.loginSuccessful username user.ID, DeleteSession storage1 username,
            [.FinishLogin user session]⟩

/-! ## Sequences of store operations -/

/-- One call of a mutating `Storage` method, with its arguments. -/
inductive StoreOp where
  | CreateUser (username : GoString) (userID : List Byte)
  | AddCredential (username : GoString) (credential : Credential)
  | UpdateCredential (username : GoString) (credential : Credential)
  | SaveSession (username : GoString) (session : SessionData)
  | DeleteSession (username : GoString)
  deriving DecidableEq, Repr

/-- The storage after one call. -/
def StoreOp.apply (s : Storage) : StoreOp → Storage
  | .CreateUser username userID => (PasskeyDemo.CreateUser s username userID).2
  | .AddCredential username credential => (PasskeyDemo.AddCredential s username credential).2
  | .UpdateCredential username credential =>
    (PasskeyDemo.UpdateCredential s username credential).2
  | .SaveSession username session => PasskeyDemo.SaveSession s username session
  | .DeleteSession username => PasskeyDemo.DeleteSession s username

/-- The storage reached from `s` by a sequence of calls, first call first. -/
def runOps (s : Storage) (ops : List StoreOp) : Storage :=
  ops.foldl StoreOp.apply s

/-- Within every stored identity the credential ids are pairwise distinct. -/
def credentialIdsUnique (s : Storage) : Prop :=
  ∀ name u, s.users name = some u → (u.Credentials.map Credential.ID).Nodup

/-- The call, made in state `s`, does not add a credential id that its target
identity already holds (every call other than `AddCredential` qualifies). -/
def StoreOp.addsFreshId (s : Storage) : StoreOp → Bool
  | .AddCredential username credential =>
    match s.users username with
    | none => true
    | some u => !(u.Credentials.map Credential.ID).contains credential.ID
  | _ => true

/-- Every call of the sequence, run from `s`, satisfies `addsFreshId` in the
state in which it is made. -/
def allAddsFresh : Storage → List StoreOp → Bool
  | _, [] => true
  | s, op :: ops => op.addsFreshId s && allAddsFresh (op.apply s) ops

/-- The identity a `RegisterBegin` for `username` hands to the engine: the
stored one, or the one it creates with the name's bytes as id. -/
def registrant (s : Storage) (username : GoString) : User :=
  match GetUser s username with
  | some user => user
  | none => (CreateUser s username username).1

/-! ## Sample values -/

/-- The name "alice". -/
def alice : GoString := [97, 108, 105, 99, 101]

/-- A credential with signature counter 0. -/
def cred0 : Credential := { ID := [1, 2, 3], PublicKey := [4, 5, 6, 7], SignCount := 0 }

/-- The credential `cred0` with signature counter 1. -/
def cred1 : Credential := { ID := [1, 2, 3], PublicKey := [4, 5, 6, 7], SignCount := 1 }

/-- A credential with another id. -/
def cred2 : Credential := { ID := [8], PublicKey := [4, 5, 6, 7], SignCount := 5 }

/-- A pending challenge for alice. -/
def sess0 : SessionData :=
  { Challenge := [42, 43], UserID := alice, AllowedCredentialIDs := [] }

/-- A later pending challenge for alice. -/
def sess1 : SessionData :=
  { Challenge := [44, 45], UserID := alice, AllowedCredentialIDs := [] }

/-- An engine that fails every call. -/
def rejectingEngine : Engine :=
  { BeginRegistration := fun _ => .error "no challenge"
    FinishRegistration := fun _ _ _ => .error "verification failed"
    BeginLogin := fun _ => .error "no challenge"
    FinishLogin := fun _ _ _ => .error "verification failed" }

/-- An engine that accepts every call: challenges carry `sess0`, registration
yields `cred0`, login yields `cred1`. -/
def acceptingEngine : Engine :=
  { BeginRegistration := fun _ => .ok (⟨[42, 43]⟩, sess0)
    FinishRegistration := fun _ _ _ => .ok cred0
    BeginLogin := fun _ => .ok (⟨[42, 43]⟩, sess0)
    FinishLogin := fun _ _ _ => .ok cred1 }

/-- The engine `acceptingEngine` on its next challenge, `sess1`. -/
def acceptingEngineNext : Engine :=
  { BeginRegistration := fun _ => .ok (⟨[44, 45]⟩, sess1)
    FinishRegistration := fun _ _ _ => .ok cred0
    BeginLogin := fun _ => .ok (⟨[44, 45]⟩, sess1)
    FinishLogin := fun _ _ _ => .ok cred1 }

/-- A storage holding the identity alice, one credential `cred0`, and a
pending session `sess0`. -/
def pendingStore : Storage :=
  SaveSession (AddCredential (CreateUser NewStorage alice alice).2 alice cred0).2 alice sess0

/-- A storage holding the identity alice without credentials and no session. -/
def bareStore : Storage :=
  (CreateUser NewStorage alice alice).2

/-- A Begin request for alice: the username travels in the JSON body. -/
def beginRequest : Request := { query := [], body := some alice, payload := [] }

/-- A Finish request for alice: the username travels in the query string. -/
def finishRequest : Request := { query := alice, body := none, payload := [123, 125] }

/-! ## Sequences of handler calls -/

/-- The four routes registered in main.go. -/
inductive Endpoint where
  | RegisterBegin
  | RegisterFinish
  | LoginBegin
  | LoginFinish
  deriving DecidableEq, Repr

/-- One request served: the route, the engine behaviour it meets, and the
request itself. -/
structure HandlerCall where
  endpoint : Endpoint
  engine : Engine
  request : Request

/-- The handler registered for the route, run on the call. -/
def HandlerCall.serve (st : Storage) (c : HandlerCall) : Outcome :=
  match c.endpoint with
  | .RegisterBegin => PasskeyDemo.RegisterBegin c.engine st c.request
  | .RegisterFinish => PasskeyDemo.RegisterFinish c.engine st c.request
  | .LoginBegin => PasskeyDemo.LoginBegin c.engine st c.request
  | .LoginFinish => PasskeyDemo.LoginFinish c.engine st c.request

/-- The name a call is made for: the decoded body field on the Begin routes
(empty when the body does not decode), `finishUsername` on the Finish routes. -/
def HandlerCall.username (c : HandlerCall) : GoString :=
  match c.endpoint with
  | .RegisterBegin | .LoginBegin =>
    match c.request.body with
    | some username => username
    | none => []
  | .RegisterFinish | .LoginFinish => finishUsername c.request

/-- The storage reached from `st` by serving the calls one after the other. -/
def serveAll (st : Storage) (calls : List HandlerCall) : Storage :=
  calls.foldl (fun s c => (c.serve s).storage) st

/-- How one map entry may differ between two storages: not at all, or only in
the credential sequence of the identity, or by a new identity without
credentials whose id and names are the key. -/
def userStep (k : GoString) (before after : Option User) : Prop :=
  after = before ∨
  (∃ u creds, before = some u ∧ after = some { u with Credentials := creds }) ∨
  (before = none ∧ k ≠ [] ∧
    after = some { ID := k, Name := k, DisplayName := k, Credentials := [] })

/-- Every identity is stored under its own name and carries the bytes of that
name as id. -/
def idsFromNames (st : Storage) : Prop :=
  ∀ k u, st.users k = some u → u.Name = k ∧ u.DisplayName = k ∧ u.ID = k

/-! ## The registration-then-login scenario -/

/-- Scenario step 1: `RegisterBegin` on the storage left by
`CreateUser(name, id)` on `NewStorage`. -/
def scenarioRegisterBegin (e : Engine) (name : GoString) (id : List Byte) (r1 : Request) :
    Outcome :=
  RegisterBegin e (CreateUser NewStorage name id).2 r1

/-- Scenario step 2: `RegisterFinish` on the storage left by step 1. -/
def scenarioRegisterFinish (e : Engine) (name : GoString) (id : List Byte)
    (r1 r2 : Request) : Outcome :=
  RegisterFinish e (scenarioRegisterBegin e name id r1).storage r2

/-- Scenario step 3: `LoginBegin` on the storage left by step 2. -/
def scenarioLoginBegin (e : Engine) (name : GoString) (id : List Byte)
    (r1 r2 r3 : Request) : Outcome :=
  LoginBegin e (scenarioRegisterFinish e name id r1 r2).storage r3

/-- Scenario step 4: `LoginFinish` on the storage left by step 3. -/
def scenarioLoginFinish (e : Engine) (name : GoString) (id : List Byte)
    (r1 r2 r3 r4 : Request) : Outcome :=
  LoginFinish e (scenarioLoginBegin e name id r1 r2 r3).storage r4

/-! ## Further sample values -/

/-- The name "bob". -/
def bob : GoString := [98, 111, 98]

/-- A request that names nobody. -/
def anonymousRequest : Request := { query := [], body := none, payload := [123, 125] }

/-- A Finish request for bob. -/
def bobFinishRequest : Request := { query := bob, body := none, payload := [123, 125] }

/-- An engine whose login verification returns `cred2`, a credential alice
does not hold. -/
def strayEngine : Engine :=
  { BeginRegistration := fun _ => .ok (⟨[42, 43]⟩, sess0)
    FinishRegistration := fun _ _ _ => .ok cred0
    BeginLogin := fun _ => .ok (⟨[42, 43]⟩, sess0)
    FinishLogin := fun _ _ _ => .ok cred2 }

/-- A storage in which alice holds `cred2`, `cred0` and `cred0` again. -/
def crowdedStore : Storage :=
  runOps NewStorage
    [.CreateUser alice alice, .AddCredential alice cred2, .AddCredential alice cred0,
      .AddCredential alice cred0]

/-- The storage `pendingStore` with a second identity, bob, and a session
pending for bob. -/
def sharedStore : Storage :=
  SaveSession (CreateUser pendingStore bob bob).2 bob sess1

/-! ## Properties -/

/-! ### The update loop -/

theorem updateLoop_eq_none_iff (c : Credential) (l : List Credential) :
    updateLoop c l = none ↔ ∀ x ∈ l, x.ID ≠ c.ID := by
  induction l with
  | nil => simp [updateLoop]
  | cons x xs ih =>
    by_cases hx : x.ID = c.ID
    · simp [updateLoop, hx]
    · simp [updateLoop, hx, ih]

theorem updateLoop_map_ID (c : Credential) (l l' : List Credential)
    (h : updateLoop c l = some l') : l'.map Credential.ID = l.map Credential.ID := by
  induction l generalizing l' with
  | nil => simp [updateLoop] at h
  | cons x xs ih =>
    by_cases hx : x.ID = c.ID
    · simp [updateLoop, hx] at h
      subst h
      simp [hx]
    · simp [updateLoop, hx] at h
      obtain ⟨r, hr, rfl⟩ := h
      simp [ih r hr]

/-! ### Store operations -/

/-- C6. Create/Add/Get round trip: on every store, after `CreateUser(name, id)`
and `AddCredential(name, c)` the add reports no error and `GetUser(name)` finds
the identity with `ID = id`, `Name = name` and credential sequence exactly
`[c]`, so the stored credential id and public-key payload are those of `c`. -/
theorem create_add_get_roundtrip (s : Storage) (name : GoString) (id : List Byte)
    (c : Credential) :
    (AddCredential (CreateUser s name id).2 name c).1 = none ∧
    GetUser (AddCredential (CreateUser s name id).2 name c).2 name
      = some { ID := id, Name := name, DisplayName := name, Credentials := [c] } ∧
    ((GetUser (AddCredential (CreateUser s name id).2 name c).2 name).map
      (fun u => u.Credentials.map (fun x => (x.ID, x.PublicKey))))
      = some [(c.ID, c.PublicKey)] := by
  simp [AddCredential, CreateUser, GetUser]

/-- C5. UpdateCredential replaces in place: for credentials `c0`, `c1` with the
same credential id and `c1.SignCount = 1` (whatever the counter of `c0`, 0 in
particular), after `CreateUser(name, id)`, `AddCredential(name, c0)` and
`UpdateCredential(name, c1)` on any store both calls return no error and
`GetUser(name)` finds an identity whose credential sequence is exactly `[c1]`:
length one, signature counter 1, no second entry. -/
theorem update_replaces_in_place (s : Storage) (name : GoString) (id : List Byte)
    (c0 c1 : Credential) (hid : c0.ID = c1.ID) (h1 : c1.SignCount = 1) :
    (AddCredential (CreateUser s name id).2 name c0).1 = none ∧
    (UpdateCredential (AddCredential (CreateUser s name id).2 name c0).2 name c1).1 = none ∧
    GetUser (UpdateCredential (AddCredential (CreateUser s name id).2 name c0).2 name c1).2 name
      = some { ID := id, Name := name, DisplayName := name, Credentials := [c1] } ∧
    ((GetUser (UpdateCredential (AddCredential (CreateUser s name id).2 name c0).2
        name c1).2 name).map (fun u => u.Credentials.map Credential.SignCount)) = some [1] ∧
    ((GetUser (UpdateCredential (AddCredential (CreateUser s name id).2 name c0).2
        name c1).2 name).map (fun u => u.Credentials.length)) = some 1 := by
  simp [AddCredential, CreateUser, GetUser, UpdateCredential, updateLoop, hid, h1]

/-- Witness of C5 on the empty store with alice, `cred0` and `cred1`. -/
theorem update_replaces_in_place_witness :
    cred0.ID = cred1.ID ∧ cred0.SignCount = 0 ∧ cred1.SignCount = 1 ∧
    GetUser (UpdateCredential (AddCredential (CreateUser NewStorage alice alice).2
        alice cred0).2 alice cred1).2 alice
      = some { ID := alice, Name := alice, DisplayName := alice, Credentials := [cred1] } :=
  ⟨by decide, by decide, by decide,
    (update_replaces_in_place NewStorage alice alice cred0 cred1
      (by decide) (by decide)).2.2.1⟩

/-- C7. UpdateCredential fails exactly when it should and is atomic on
failure: it returns an error if and only if no identity is stored for the name
or no credential of the stored identity has the credential id of `c`; and
whenever it returns an error the storage (users and sessions) is unchanged. -/
theorem updateCredential_error_iff (s : Storage) (name : GoString) (c : Credential) :
    ((UpdateCredential s name c).1 ≠ none ↔
      (s.users name = none ∨
        ∃ u, s.users name = some u ∧ ∀ x ∈ u.Credentials, x.ID ≠ c.ID)) ∧
    ((UpdateCredential s name c).1 ≠ none →
      (UpdateCredential s name c).2 = s ∧
      (UpdateCredential s name c).2.users = s.users ∧
      (UpdateCredential s name c).2.sessions = s.sessions) := by
  unfold UpdateCredential
  cases hu : s.users name with
  | none => simp
  | some u =>
    cases hl : updateLoop c u.Credentials with
    | none =>
      have := (updateLoop_eq_none_iff c u.Credentials).1 hl
      simpa [hl] using this
    | some l =>
      have hne : ¬ (∀ x ∈ u.Credentials, x.ID ≠ c.ID) := by
        intro hall
        have := (updateLoop_eq_none_iff c u.Credentials).2 hall
        simp [hl] at this
      simpa [hl] using hne

/-- Witness of C7: updating `cred2`, whose id alice does not hold, fails and
leaves the storage as it was; updating `cred1` succeeds. -/
theorem updateCredential_error_iff_witness :
    (UpdateCredential pendingStore alice cred2).1 ≠ none ∧
    (UpdateCredential pendingStore alice cred2).2 = pendingStore ∧
    (UpdateCredential pendingStore alice cred1).1 = none :=
  have h : (UpdateCredential pendingStore alice cred2).1 ≠ none := by
    simp [UpdateCredential, pendingStore, SaveSession, AddCredential, CreateUser, updateLoop,
      cred0, cred2]
  ⟨h, ((updateCredential_error_iff pendingStore alice cred2).2 h).1, by
    simp [UpdateCredential, pendingStore, SaveSession, AddCredential, CreateUser, updateLoop,
      cred0, cred1]⟩

/-- C8. AddCredential appends or fails: it returns an error if and only if no
identity is stored for the name, and then the storage is unchanged; otherwise
the identity keeps its id and names and its credential sequence becomes the old
one with `c` appended last (whether or not the id of `c` was already present),
while every other identity and the sessions are untouched. -/
theorem addCredential_appends_or_fails (s : Storage) (name : GoString) (c : Credential) :
    ((AddCredential s name c).1 ≠ none ↔ s.users name = none) ∧
    (s.users name = none → (AddCredential s name c).2 = s) ∧
    (∀ u, s.users name = some u →
      (AddCredential s name c).1 = none ∧
      (AddCredential s name c).2.users name
        = some { u with Credentials := u.Credentials ++ [c] } ∧
      (∀ m, m ≠ name → (AddCredential s name c).2.users m = s.users m) ∧
      (AddCredential s name c).2.sessions = s.sessions) := by
  unfold AddCredential
  cases hu : s.users name with
  | none => simp
  | some u =>
    simp only [ne_eq, not_true_eq_false, false_iff, not_false_eq_true, true_and, reduceCtorEq,
      false_implies, Option.some.injEq, forall_eq', ite_true, and_true]
    intro m hm
    simp [hm]

/-- Witness of C8: adding `cred0` a second time to alice appends it again;
adding to the empty store fails and changes nothing. -/
theorem addCredential_appends_or_fails_witness :
    (AddCredential pendingStore alice cred0).2.users alice
      = some { ID := alice, Name := alice, DisplayName := alice,
               Credentials := [cred0, cred0] } ∧
    (AddCredential NewStorage alice cred0).2 = NewStorage :=
  ⟨by
    have h := ((addCredential_appends_or_fails pendingStore alice cred0).2.2
      { ID := alice, Name := alice, DisplayName := alice, Credentials := [cred0] }
      (by simp [pendingStore, SaveSession, AddCredential, CreateUser])).2.1
    simpa using h,
   (addCredential_appends_or_fails NewStorage alice cred0).2.1 rfl⟩

/-! ### Credential ids under sequences of store operations -/

theorem credentialIdsUnique_apply (s : Storage) (op : StoreOp)
    (hs : credentialIdsUnique s) (hf : op.addsFreshId s = true) :
    credentialIdsUnique (op.apply s) := by
  intro k v hv
  cases op with
  | CreateUser username userID =>
    simp only [StoreOp.apply, CreateUser] at hv
    by_cases hk : k = username
    · simp only [hk, if_true, Option.some.injEq] at hv
      subst hv
      simp
    · simp only [hk, if_false] at hv
      exact hs k v hv
  | AddCredential username credential =>
    simp only [StoreOp.apply, AddCredential] at hv
    cases hu : s.users username with
    | none =>
      simp only [hu] at hv
      exact hs k v hv
    | some u =>
      simp only [hu] at hv
      by_cases hk : k = username
      · simp only [hk, if_true, Option.some.injEq] at hv
        subst hv
        have hnd := hs username u hu
        simp [StoreOp.addsFreshId, hu] at hf
        simp only [List.map_append, List.map_cons, List.map_nil]
        refine List.Nodup.append hnd (List.nodup_singleton _) ?_
        intro a ha hb
        simp only [List.mem_singleton] at hb
        subst hb
        obtain ⟨x, hx, hxa⟩ := List.mem_map.1 ha
        exact hf x hx hxa
      · simp only [hk, if_false] at hv
        exact hs k v hv
  | UpdateCredential username credential =>
    simp only [StoreOp.apply, UpdateCredential] at hv
    cases hu : s.users username with
    | none =>
      simp only [hu] at hv
      exact hs k v hv
    | some u =>
      simp only [hu] at hv
      cases hl : updateLoop credential u.Credentials with
      | none =>
        simp only [hl] at hv
        exact hs k v hv
      | some l =>
        simp only [hl] at hv
        by_cases hk : k = username
        · simp only [hk, if_true, Option.some.injEq] at hv
          subst hv
          simp only
          rw [updateLoop_map_ID credential u.Credentials l hl]
          exact hs username u hu
        · simp only [hk, if_false] at hv
          exact hs k v hv
  | SaveSession username session => exact hs k v hv
  | DeleteSession username => exact hs k v hv

theorem credentialIdsUnique_runOps (ops : List StoreOp) (s : Storage)
    (hs : credentialIdsUnique s) (hf : allAddsFresh s ops = true) :
    credentialIdsUnique (runOps s ops) := by
  induction ops generalizing s with
  | nil => exact hs
  | cons op ops ih =>
    simp only [allAddsFresh, Bool.and_eq_true] at hf
    exact ih (op.apply s) (credentialIdsUnique_apply s op hs hf.1) hf.2

/-- C4, as claimed, fails: from `NewStorage`, `CreateUser` followed by two
`AddCredential` calls with the same credential leaves alice with the sequence
`[cred0, cred0]`, whose credential ids are not pairwise distinct. -/
theorem credentialIdsUnique_counterexample :
    (runOps NewStorage
        [.CreateUser alice alice, .AddCredential alice cred0, .AddCredential alice cred0]).users
        alice
      = some { ID := alice, Name := alice, DisplayName := alice,
               Credentials := [cred0, cred0] } ∧
    ¬ credentialIdsUnique (runOps NewStorage
        [.CreateUser alice alice, .AddCredential alice cred0, .AddCredential alice cred0]) := by
  have h : (runOps NewStorage
        [.CreateUser alice alice, .AddCredential alice cred0, .AddCredential alice cred0]).users
        alice
      = some { ID := alice, Name := alice, DisplayName := alice,
               Credentials := [cred0, cred0] } := by
    simp [runOps, StoreOp.apply, AddCredential, CreateUser, NewStorage]
  refine ⟨h, fun hu => ?_⟩
  have := hu alice _ h
  simp at this

/-- C4, amended. The store does not check credential ids on `AddCredential`;
uniqueness holds along every sequence of `CreateUser`, `AddCredential`,
`UpdateCredential`, `SaveSession` and `DeleteSession` calls from `NewStorage`
in which no `AddCredential` adds an id its target identity already holds: in
the state reached, the credential ids of each identity are pairwise distinct. -/
theorem credentialIdsUnique_of_fresh_adds (ops : List StoreOp)
    (hf : allAddsFresh NewStorage ops = true) :
    credentialIdsUnique (runOps NewStorage ops) :=
  credentialIdsUnique_runOps ops NewStorage (fun _ _ h => by simp [NewStorage] at h) hf

/-- Witness of amended C4: create alice, add `cred0`, update it to `cred1`, add
`cred2`, save and delete a session. -/
theorem credentialIdsUnique_of_fresh_adds_witness :
    allAddsFresh NewStorage
        [.CreateUser alice alice, .AddCredential alice cred0, .UpdateCredential alice cred1,
          .AddCredential alice cred2, .SaveSession alice sess0, .DeleteSession alice] = true ∧
    credentialIdsUnique (runOps NewStorage
        [.CreateUser alice alice, .AddCredential alice cred0, .UpdateCredential alice cred1,
          .AddCredential alice cred2, .SaveSession alice sess0, .DeleteSession alice]) :=
  have h : allAddsFresh NewStorage
        [.CreateUser alice alice, .AddCredential alice cred0, .UpdateCredential alice cred1,
          .AddCredential alice cred2, .SaveSession alice sess0, .DeleteSession alice] = true := by
    decide
  ⟨h, credentialIdsUnique_of_fresh_adds _ h⟩

/-! ### Finish handlers and the pending session -/

/-- C1, as claimed, fails: in `pendingStore` alice has an identity and a
pending session, the engine rejects the response, and after `RegisterFinish`
has answered with the verification error the session `sess0` is still stored
for alice. -/
theorem registerFinish_session_counterexample :
    finishUsername finishRequest = alice ∧ alice ≠ [] ∧
    (GetUser pendingStore alice).isSome = true ∧
    GetSession pendingStore alice = some sess0 ∧
    (RegisterFinish rejectingEngine pendingStore finishRequest).response
      = .httpError "Failed to finish registration: verification failed" StatusBadRequest ∧
    GetSession (RegisterFinish rejectingEngine pendingStore finishRequest).storage alice
      = some sess0 := by
  simp [RegisterFinish, finishUsername, finishRequest, alice, pendingStore, rejectingEngine,
    GetUser, GetSession, SaveSession, AddCredential, CreateUser, NewStorage]

/-- C1, amended. `RegisterFinish` consumes the session on success only: when an
identity and a session exist for the non-empty name of the request, then if the
engine returns a credential the handler reports success and no session is
stored for the name afterwards; if the engine fails, the handler answers with
the engine's error text under status 400 and the storage is unchanged, so the
session is still stored. -/
theorem registerFinish_session (e : Engine) (st : Storage) (r : Request) (u : User)
    (sess : SessionData) (hne : finishUsername r ≠ [])
    (hu : GetUser st (finishUsername r) = some u)
    (hs : GetSession st (finishUsername r) = some sess) :
    (∀ c, e.FinishRegistration u sess r = .ok c →
      (RegisterFinish e st r).response = .registrationSuccessful ∧
      GetSession (RegisterFinish e st r).storage (finishUsername r) = none) ∧
    (∀ err, e.FinishRegistration u sess r = .error err →
      (RegisterFinish e st r).response
        = .httpError ("Failed to finish registration: " ++ err) StatusBadRequest ∧
      (RegisterFinish e st r).storage = st ∧
      GetSession (RegisterFinish e st r).storage (finishUsername r) = some sess) := by
  simp only [GetUser] at hu
  simp only [GetSession] at hs
  constructor
  · intro c hc
    simp [RegisterFinish, GetUser, GetSession, AddCredential, DeleteSession, hne, hu, hs, hc]
  · intro err herr
    simp [RegisterFinish, GetUser, GetSession, hne, hu, hs, herr]

/-- Witness of amended C1 on `pendingStore`: the accepting engine makes the
session disappear, the rejecting engine leaves the storage as it was. -/
theorem registerFinish_session_witness :
    GetSession (RegisterFinish acceptingEngine pendingStore finishRequest).storage alice = none ∧
    (RegisterFinish rejectingEngine pendingStore finishRequest).storage = pendingStore :=
  have hne : finishUsername finishRequest ≠ [] := by decide
  have hu : GetUser pendingStore (finishUsername finishRequest)
      = some { ID := alice, Name := alice, DisplayName := alice, Credentials := [cred0] } := by
    simp [finishUsername, finishRequest, alice, pendingStore, GetUser, SaveSession,
      AddCredential, CreateUser, NewStorage]
  have hs : GetSession pendingStore (finishUsername finishRequest) = some sess0 := by
    simp [finishUsername, finishRequest, alice, pendingStore, GetSession, SaveSession]
  ⟨((registerFinish_session acceptingEngine pendingStore finishRequest _ sess0 hne hu hs).1
      cred0 rfl).2,
   ((registerFinish_session rejectingEngine pendingStore finishRequest _ sess0 hne hu hs).2
      "verification failed" rfl).2.1⟩

/-- C2, as claimed, fails: in `pendingStore` alice has an identity and a
pending session, the engine rejects the assertion, and after `LoginFinish` has
answered with the verification error the session `sess0` is still stored for
alice. -/
theorem loginFinish_session_counterexample :
    finishUsername finishRequest = alice ∧ alice ≠ [] ∧
    (GetUser pendingStore alice).isSome = true ∧
    GetSession pendingStore alice = some sess0 ∧
    (LoginFinish rejectingEngine pendingStore finishRequest).response
      = .httpError "Failed to finish login: verification failed" StatusBadRequest ∧
    GetSession (LoginFinish rejectingEngine pendingStore finishRequest).storage alice
      = some sess0 := by
  simp [LoginFinish, finishUsername, finishRequest, alice, pendingStore, rejectingEngine,
    GetUser, GetSession, SaveSession, AddCredential, CreateUser, NewStorage]

/-- C2, amended. `LoginFinish` deletes the session whenever the engine accepts:
when an identity and a session exist for the non-empty name of the request,
then if the engine returns a credential (whether or not `UpdateCredential` can
store it) the handler reports success with the name and the identity's id and
no session is stored for the name afterwards; if the engine fails, the handler
answers with the engine's error text under status 400 and the storage is
unchanged, so the session is still stored. -/
theorem loginFinish_session (e : Engine) (st : Storage) (r : Request) (u : User)
    (sess : SessionData) (hne : finishUsername r ≠ [])
    (hu : GetUser st (finishUsername r) = some u)
    (hs : GetSession st (finishUsername r) = some sess) :
    (∀ c, e.FinishLogin u sess r = .ok c →
      (LoginFinish e st r).response = .loginSuccessful (finishUsername r) u.ID ∧
      GetSession (LoginFinish e st r).storage (finishUsername r) = none) ∧
    (∀ err, e.FinishLogin u sess r = .error err →
      (LoginFinish e st r).response
        = .httpError ("Failed to finish login: " ++ err) StatusBadRequest ∧
      (LoginFinish e st r).storage = st ∧
      GetSession (LoginFinish e st r).storage (finishUsername r) = some sess) := by
  simp only [GetUser] at hu
  simp only [GetSession] at hs
  constructor
  · intro c hc
    simp [LoginFinish, GetUser, GetSession, DeleteSession, hne, hu, hs, hc]
  · intro err herr
    simp [LoginFinish, GetUser, GetSession, hne, hu, hs, herr]

/-- Witness of amended C2 on `pendingStore`: the accepting engine makes the
session disappear, the rejecting engine leaves the storage as it was. -/
theorem loginFinish_session_witness :
    GetSession (LoginFinish acceptingEngine pendingStore finishRequest).storage alice = none ∧
    (LoginFinish rejectingEngine pendingStore finishRequest).storage = pendingStore :=
  have hne : finishUsername finishRequest ≠ [] := by decide
  have hu : GetUser pendingStore (finishUsername finishRequest)
      = some { ID := alice, Name := alice, DisplayName := alice, Credentials := [cred0] } := by
    simp [finishUsername, finishRequest, alice, pendingStore, GetUser, SaveSession,
      AddCredential, CreateUser, NewStorage]
  have hs : GetSession pendingStore (finishUsername finishRequest) = some sess0 := by
    simp [finishUsername, finishRequest, alice, pendingStore, GetSession, SaveSession]
  ⟨((loginFinish_session acceptingEngine pendingStore finishRequest _ sess0 hne hu hs).1
      cred1 rfl).2,
   ((loginFinish_session rejectingEngine pendingStore finishRequest _ sess0 hne hu hs).2
      "verification failed" rfl).2.1⟩

/-! ### Finish is single-use -/

theorem registerFinish_no_session (e : Engine) (st : Storage) (r : Request) (u : User)
    (hne : finishUsername r ≠ []) (hu : st.users (finishUsername r) = some u)
    (hs : st.sessions (finishUsername r) = none) :
    RegisterFinish e st r = ⟨.httpError "Session not found" StatusBadRequest, st, []⟩ := by
  simp [RegisterFinish, GetUser, GetSession, hne, hu, hs]

theorem loginFinish_no_session (e : Engine) (st : Storage) (r : Request) (u : User)
    (hne : finishUsername r ≠ []) (hu : st.users (finishUsername r) = some u)
    (hs : st.sessions (finishUsername r) = none) :
    LoginFinish e st r = ⟨.httpError "Session not found" StatusBadRequest, st, []⟩ := by
  simp [LoginFinish, GetUser, GetSession, hne, hu, hs]

theorem registerFinish_success_inv (e : Engine) (st : Storage) (r : Request)
    (h : (RegisterFinish e st r).response = .registrationSuccessful) :
    finishUsername r ≠ [] ∧
    (∃ u, (RegisterFinish e st r).storage.users (finishUsername r) = some u) ∧
    (RegisterFinish e st r).storage.sessions (finishUsername r) = none := by
  unfold RegisterFinish at h ⊢
  simp only [GetUser, GetSession] at h ⊢
  by_cases hne : finishUsername r = []
  · simp [hne] at h
  · cases hu : st.users (finishUsername r) with
    | none => simp [hne, hu] at h
    | some u =>
      cases hs : st.sessions (finishUsername r) with
      | none => simp [hne, hu, hs] at h
      | some sess =>
        cases he : e.FinishRegistration u sess r with
        | error err => simp [hne, hu, hs, he] at h
        | ok c => simp [hne, hu, hs, he, AddCredential, DeleteSession]

theorem loginFinish_success_inv (e : Engine) (st : Storage) (r : Request)
    (n : GoString) (id : List Byte)
    (h : (LoginFinish e st r).response = .loginSuccessful n id) :
    finishUsername r ≠ [] ∧
    (∃ u, (LoginFinish e st r).storage.users (finishUsername r) = some u) ∧
    (LoginFinish e st r).storage.sessions (finishUsername r) = none := by
  unfold LoginFinish at h ⊢
  simp only [GetUser, GetSession] at h ⊢
  by_cases hne : finishUsername r = []
  · simp [hne] at h
  · cases hu : st.users (finishUsername r) with
    | none => simp [hne, hu] at h
    | some u =>
      cases hs : st.sessions (finishUsername r) with
      | none => simp [hne, hu, hs] at h
      | some sess =>
        cases he : e.FinishLogin u sess r with
        | error err => simp [hne, hu, hs, he] at h
        | ok c =>
          simp only [hne, hu, hs, he, DeleteSession, UpdateCredential, if_false, if_true,
            not_false_eq_true, ne_eq, true_and]
          cases hl : updateLoop c u.Credentials with
          | none => simp [hu]
          | some l => simp

/-- C3. Finish is single-use: if a `RegisterFinish` call answers with the
success object, a `RegisterFinish` call for the same name made right after it,
on the storage it left and with any engine and any response payload, answers
"Session not found" (status 400, the handlers' signal for an absent session),
performs no engine call and leaves the storage as it is; and the same holds for
two successive `LoginFinish` calls. -/
theorem finish_single_use (e1 e2 : Engine) (st : Storage) (r1 r2 : Request)
    (hsame : finishUsername r2 = finishUsername r1) :
    ((RegisterFinish e1 st r1).response = .registrationSuccessful →
      GetSession (RegisterFinish e1 st r1).storage (finishUsername r1) = none ∧
      (RegisterFinish e2 (RegisterFinish e1 st r1).storage r2).response
        = .httpError "Session not found" StatusBadRequest ∧
      (RegisterFinish e2 (RegisterFinish e1 st r1).storage r2).calls = [] ∧
      (RegisterFinish e2 (RegisterFinish e1 st r1).storage r2).storage
        = (RegisterFinish e1 st r1).storage) ∧
    (∀ n id, (LoginFinish e1 st r1).response = .loginSuccessful n id →
      GetSession (LoginFinish e1 st r1).storage (finishUsername r1) = none ∧
      (LoginFinish e2 (LoginFinish e1 st r1).storage r2).response
        = .httpError "Session not found" StatusBadRequest ∧
      (LoginFinish e2 (LoginFinish e1 st r1).storage r2).calls = [] ∧
      (LoginFinish e2 (LoginFinish e1 st r1).storage r2).storage
        = (LoginFinish e1 st r1).storage) := by
  constructor
  · intro h
    obtain ⟨hne, ⟨u, hu⟩, hs⟩ := registerFinish_success_inv e1 st r1 h
    rw [← hsame] at hne hu hs
    have h2 := registerFinish_no_session e2 _ r2 u hne hu hs
    rw [hsame] at hs
    rw [h2]
    exact ⟨hs, rfl, rfl, rfl⟩
  · intro n id h
    obtain ⟨hne, ⟨u, hu⟩, hs⟩ := loginFinish_success_inv e1 st r1 n id h
    rw [← hsame] at hne hu hs
    have h2 := loginFinish_no_session e2 _ r2 u hne hu hs
    rw [hsame] at hs
    rw [h2]
    exact ⟨hs, rfl, rfl, rfl⟩

/-- Witness of C3 on `pendingStore`: the first Finish for alice succeeds with
the accepting engine, the second is answered "Session not found" without an
engine call, for registration and for login. -/
theorem finish_single_use_witness :
    (RegisterFinish acceptingEngine pendingStore finishRequest).response
      = .registrationSuccessful ∧
    (RegisterFinish acceptingEngine
        (RegisterFinish acceptingEngine pendingStore finishRequest).storage finishRequest).response
      = .httpError "Session not found" StatusBadRequest ∧
    (LoginFinish acceptingEngine pendingStore finishRequest).response
      = .loginSuccessful alice alice ∧
    (LoginFinish acceptingEngine
        (LoginFinish acceptingEngine pendingStore finishRequest).storage finishRequest).calls
      = [] :=
  have hr : (RegisterFinish acceptingEngine pendingStore finishRequest).response
      = .registrationSuccessful := by
    simp [RegisterFinish, finishUsername, finishRequest, alice, pendingStore, acceptingEngine,
      GetUser, GetSession, SaveSession, AddCredential, CreateUser, NewStorage]
  have hl : (LoginFinish acceptingEngine pendingStore finishRequest).response
      = .loginSuccessful alice alice := by
    simp [LoginFinish, finishUsername, finishRequest, alice, pendingStore, acceptingEngine,
      GetUser, GetSession, SaveSession, AddCredential, CreateUser, NewStorage]
  ⟨hr,
   ((finish_single_use acceptingEngine acceptingEngine pendingStore finishRequest finishRequest
      rfl).1 hr).2.1,
   hl,
   ((finish_single_use acceptingEngine acceptingEngine pendingStore finishRequest finishRequest
      rfl).2 alice alice hl).2.2.1⟩

/-! ### Begin handlers -/

/-- C10. `LoginBegin` rejects principals it cannot authenticate: for a request
carrying a non-empty name, it answers "User not found" (status 404) when no
identity is stored for the name, and "No credentials registered for this user"
(status 400) when the identity exists with an empty credential sequence; in
both cases it performs no engine call and returns the storage unchanged, so no
session is saved or altered. -/
theorem loginBegin_rejects (e : Engine) (st : Storage) (r : Request) (name : GoString)
    (hr : r.body = some name) (hne : name ≠ []) :
    (GetUser st name = none →
      LoginBegin e st r = ⟨.httpError "User not found" StatusNotFound, st, []⟩) ∧
    (∀ u, GetUser st name = some u → u.Credentials = [] →
      LoginBegin e st r
        = ⟨.httpError "No credentials registered for this user" StatusBadRequest, st, []⟩) := by
  constructor
  · intro hu
    simp [LoginBegin, hr, hne, hu]
  · intro u hu hc
    simp [LoginBegin, hr, hne, hu, hc]

/-- Witness of C10: alice is unknown to `NewStorage` and has no credentials in
`bareStore`; the accepting engine is never reached. -/
theorem loginBegin_rejects_witness :
    (LoginBegin acceptingEngine NewStorage beginRequest).response
      = .httpError "User not found" StatusNotFound ∧
    (LoginBegin acceptingEngine bareStore beginRequest).response
      = .httpError "No credentials registered for this user" StatusBadRequest ∧
    (LoginBegin acceptingEngine bareStore beginRequest).calls = [] :=
  have hne : alice ≠ [] := by decide
  have h1 := (loginBegin_rejects acceptingEngine NewStorage beginRequest alice rfl hne).1 rfl
  have h2 := (loginBegin_rejects acceptingEngine bareStore beginRequest alice rfl hne).2
    { ID := alice, Name := alice, DisplayName := alice, Credentials := [] }
    (by simp [GetUser, bareStore, CreateUser]) rfl
  ⟨by rw [h1], by rw [h2], by rw [h2]⟩

/-- The storage after a `RegisterBegin` whose engine call succeeds: the
identity is stored (created when it was missing) and the session is saved. -/
theorem registerBegin_ok (e : Engine) (st : Storage) (r : Request) (name : GoString)
    (o : ChallengeOptions) (sn : SessionData) (hr : r.body = some name) (hne : name ≠ [])
    (he : e.BeginRegistration (registrant st name) = .ok (o, sn)) :
    (RegisterBegin e st r).response = .challenge o ∧
    (RegisterBegin e st r).storage.sessions = (SaveSession st name sn).sessions ∧
    (RegisterBegin e st r).storage.users name = some (registrant st name) ∧
    (RegisterBegin e st r).calls = [.BeginRegistration (registrant st name)] := by
  unfold registrant at he ⊢
  unfold RegisterBegin
  simp only [hr, hne, if_false]
  cases hu : GetUser st name with
  | none =>
    simp only [hu, CreateUser] at he ⊢
    simp [he, SaveSession]
  | some u =>
    simp only [hu] at he ⊢
    simp only [GetUser] at hu
    simp [he, SaveSession, hu]

theorem registrant_of_stored (st : Storage) (name : GoString) (u : User)
    (hu : st.users name = some u) : registrant st name = u := by
  simp [registrant, GetUser, hu]

theorem saveSession_saveSession (st : Storage) (name : GoString) (s1 s2 : SessionData) :
    SaveSession (SaveSession st name s1) name s2 = SaveSession st name s2 := by
  unfold SaveSession
  congr 1
  funext k
  by_cases hk : k = name <;> simp [hk]

/-- C9. At most one outstanding session per principal, last write wins. For a
non-empty name: (1) when the engine produces session `s1` for the first
`RegisterBegin` and `s2` for the second one made right after it, both calls
answer with their challenge, `GetSession(name)` returns `s1` after the first
and `s2` after the second, and the sessions map after the second call is the
original map with the single entry `name ↦ s2` written, so nothing of `s1`
remains; (2) the same for two successive `LoginBegin` calls on an identity
that has at least one credential; (3) `SaveSession(name, s1)` followed by
`SaveSession(name, s2)` gives the same store as `SaveSession(name, s2)` alone. -/
theorem begin_twice_last_wins (e1 e2 : Engine) (st : Storage) (r1 r2 : Request)
    (name : GoString) (o1 o2 : ChallengeOptions) (s1 s2 : SessionData)
    (hr1 : r1.body = some name) (hr2 : r2.body = some name) (hne : name ≠ []) :
    (e1.BeginRegistration (registrant st name) = .ok (o1, s1) →
      e2.BeginRegistration (registrant st name) = .ok (o2, s2) →
      (RegisterBegin e1 st r1).response = .challenge o1 ∧
      GetSession (RegisterBegin e1 st r1).storage name = some s1 ∧
      (RegisterBegin e2 (RegisterBegin e1 st r1).storage r2).response = .challenge o2 ∧
      GetSession (RegisterBegin e2 (RegisterBegin e1 st r1).storage r2).storage name
        = some s2 ∧
      (RegisterBegin e2 (RegisterBegin e1 st r1).storage r2).storage.sessions
        = (SaveSession st name s2).sessions) ∧
    (∀ u, GetUser st name = some u → u.Credentials ≠ [] →
      e1.BeginLogin u = .ok (o1, s1) → e2.BeginLogin u = .ok (o2, s2) →
      (LoginBegin e1 st r1).response = .challenge o1 ∧
      GetSession (LoginBegin e1 st r1).storage name = some s1 ∧
      (LoginBegin e2 (LoginBegin e1 st r1).storage r2).response = .challenge o2 ∧
      GetSession (LoginBegin e2 (LoginBegin e1 st r1).storage r2).storage name = some s2 ∧
      (LoginBegin e2 (LoginBegin e1 st r1).storage r2).storage = SaveSession st name s2) ∧
    SaveSession (SaveSession st name s1) name s2 = SaveSession st name s2 := by
  refine ⟨?_, ?_, saveSession_saveSession st name s1 s2⟩
  · intro h1 h2
    obtain ⟨a1, a2, a3, _⟩ := registerBegin_ok e1 st r1 name o1 s1 hr1 hne h1
    have hreg : registrant (RegisterBegin e1 st r1).storage name = registrant st name :=
      registrant_of_stored _ name _ a3
    obtain ⟨b1, b2, _, _⟩ :=
      registerBegin_ok e2 (RegisterBegin e1 st r1).storage r2 name o2 s2 hr2 hne
        (by rw [hreg]; exact h2)
    have hss : (SaveSession (RegisterBegin e1 st r1).storage name s2).sessions
        = (SaveSession st name s2).sessions := by
      have := congrArg Storage.sessions (saveSession_saveSession st name s1 s2)
      simp only [SaveSession] at this a2 ⊢
      rw [a2]
      exact this
    refine ⟨a1, ?_, b1, ?_, ?_⟩
    · simp [GetSession, a2, SaveSession]
    · simp [GetSession, b2, SaveSession]
    · rw [b2, hss]
  · intro u hu hc h1 h2
    have hlen : ¬ u.Credentials.length = 0 := by
      simpa [List.length_eq_zero] using hc
    have hfirst : LoginBegin e1 st r1
        = ⟨.challenge o1, SaveSession st name s1, [.BeginLogin u]⟩ := by
      simp [LoginBegin, hr1, hne, hu, hlen, h1]
    have hu2 : GetUser (SaveSession st name s1) name = some u := by
      simpa [GetUser, SaveSession] using hu
    have hsecond : LoginBegin e2 (SaveSession st name s1) r2
        = ⟨.challenge o2, SaveSession (SaveSession st name s1) name s2, [.BeginLogin u]⟩ := by
      simp [LoginBegin, hr2, hne, hu2, hlen, h2]
    rw [hfirst, hsecond, saveSession_saveSession]
    simp [GetSession, SaveSession]

/-- Witness of C9 from `NewStorage` (registration, where the first call creates
alice) and from `pendingStore` (login), with sessions `sess0` then `sess1`. -/
theorem begin_twice_last_wins_witness :
    GetSession (RegisterBegin acceptingEngineNext
        (RegisterBegin acceptingEngine NewStorage beginRequest).storage beginRequest).storage
        alice = some sess1 ∧
    GetSession (LoginBegin acceptingEngineNext
        (LoginBegin acceptingEngine pendingStore beginRequest).storage beginRequest).storage
        alice = some sess1 :=
  have hne : alice ≠ [] := by decide
  ⟨((begin_twice_last_wins acceptingEngine acceptingEngineNext NewStorage beginRequest
      beginRequest alice ⟨[42, 43]⟩ ⟨[44, 45]⟩ sess0 sess1 rfl rfl hne).1 rfl rfl).2.2.2.1,
   ((begin_twice_last_wins acceptingEngine acceptingEngineNext pendingStore beginRequest
      beginRequest alice ⟨[42, 43]⟩ ⟨[44, 45]⟩ sess0 sess1 rfl rfl hne).2.1
      { ID := alice, Name := alice, DisplayName := alice, Credentials := [cred0] }
      (by simp [GetUser, pendingStore, SaveSession, AddCredential, CreateUser])
      (by simp) rfl rfl).2.2.2.1⟩

/-! ### Deleting a session -/

/-- C16. Delete is idempotent and total: `DeleteSession` returns no error (it
is a total function on storages); when no session is stored for the name it
leaves the store unchanged; applying it twice gives the same store as applying
it once; afterwards `GetSession(name)` reports not found, and the sessions of
every other name and the whole users map are unchanged. -/
theorem deleteSession_idempotent (st : Storage) (name : GoString) :
    (GetSession st name = none → DeleteSession st name = st) ∧
    DeleteSession (DeleteSession st name) name = DeleteSession st name ∧
    GetSession (DeleteSession st name) name = none ∧
    (∀ m, m ≠ name → GetSession (DeleteSession st name) m = GetSession st m) ∧
    (DeleteSession st name).users = st.users := by
  refine ⟨?_, ?_, ?_, ?_, rfl⟩
  · intro h
    simp only [GetSession] at h
    cases st with
    | mk users sessions =>
      simp only [DeleteSession, Storage.mk.injEq, true_and]
      funext k
      by_cases hk : k = name
      · simp only [hk, if_true]
        exact h.symm
      · simp [hk]
  · unfold DeleteSession
    congr 1
    funext k
    by_cases hk : k = name <;> simp [hk]
  · simp [GetSession, DeleteSession]
  · intro m hm
    simp [GetSession, DeleteSession, hm]

/-- Witness of C16: `bareStore` holds no session for alice and is left as it
is; in `pendingStore` the session of alice is gone after the call. -/
theorem deleteSession_idempotent_witness :
    DeleteSession bareStore alice = bareStore ∧
    GetSession pendingStore alice = some sess0 ∧
    GetSession (DeleteSession pendingStore alice) alice = none :=
  ⟨(deleteSession_idempotent bareStore alice).1 rfl,
   by simp [GetSession, pendingStore, SaveSession],
   (deleteSession_idempotent pendingStore alice).2.2.1⟩

/-! ### The slot written by UpdateCredential -/

theorem updateLoop_some_set (c : Credential) (l l' : List Credential)
    (h : updateLoop c l = some l') :
    ∃ i, i < l.length ∧ l' = l.set i c ∧
      (∀ x, l[i]? = some x → x.ID = c.ID) ∧
      (∀ j x, j < i → l[j]? = some x → x.ID ≠ c.ID) := by
  induction l generalizing l' with
  | nil => simp [updateLoop] at h
  | cons y ys ih =>
    by_cases hy : y.ID = c.ID
    · simp only [updateLoop, hy, if_true, Option.some.injEq] at h
      refine ⟨0, by simp, ?_, ?_, ?_⟩
      · simp [← h]
      · intro x hx
        simp only [List.getElem?_cons_zero, Option.some.injEq] at hx
        rw [← hx]
        exact hy
      · intro j x hj
        exact absurd hj (Nat.not_lt_zero j)
    · simp only [updateLoop, hy, if_false, Option.map_eq_some'] at h
      obtain ⟨r, hr, rfl⟩ := h
      obtain ⟨i, hi, hset, hat, hbefore⟩ := ih r hr
      refine ⟨i + 1, by simpa using hi, ?_, ?_, ?_⟩
      · simp [hset]
      · intro x hx
        simp only [List.getElem?_cons_succ] at hx
        exact hat x hx
      · intro j x hj hx
        cases j with
        | zero =>
          simp only [List.getElem?_cons_zero, Option.some.injEq] at hx
          rw [← hx]
          exact hy
        | succ j =>
          simp only [List.getElem?_cons_succ] at hx
          exact hbefore j x (Nat.lt_of_succ_lt_succ hj) hx

/-- C20. UpdateCredential touches exactly one slot: whenever
`UpdateCredential(name, c)` returns no error there are a stored identity `u`
and an index `i` inside its credential sequence such that the credential at `i`
has the id of `c`, no credential at a smaller index has it, and afterwards the
identity stored for the name is `u` with slot `i` set to `c`: same `ID`,
`Name` and `DisplayName`, same length, `c` at index `i`, and every other index
(later ones with the same id included) holding what it held before; every
other identity and the sessions map are unchanged. -/
theorem updateCredential_one_slot (st : Storage) (name : GoString) (c : Credential)
    (hok : (UpdateCredential st name c).1 = none) :
    ∃ u i, st.users name = some u ∧ i < u.Credentials.length ∧
      (∀ x, u.Credentials[i]? = some x → x.ID = c.ID) ∧
      (∀ j x, j < i → u.Credentials[j]? = some x → x.ID ≠ c.ID) ∧
      (UpdateCredential st name c).2.users name
        = some { ID := u.ID, Name := u.Name, DisplayName := u.DisplayName,
                 Credentials := u.Credentials.set i c } ∧
      (u.Credentials.set i c).length = u.Credentials.length ∧
      (u.Credentials.set i c)[i]? = some c ∧
      (∀ j, j ≠ i → (u.Credentials.set i c)[j]? = u.Credentials[j]?) ∧
      (∀ m, m ≠ name → (UpdateCredential st name c).2.users m = st.users m) ∧
      (UpdateCredential st name c).2.sessions = st.sessions := by
  unfold UpdateCredential at hok ⊢
  cases hu : st.users name with
  | none => simp [hu] at hok
  | some u =>
    cases hl : updateLoop c u.Credentials with
    | none => simp [hu, hl] at hok
    | some l =>
      obtain ⟨i, hi, hset, hat, hbefore⟩ := updateLoop_some_set c u.Credentials l hl
      refine ⟨u, i, rfl, hi, hat, hbefore, ?_, ?_, ?_, ?_, ?_, ?_⟩
      · simp [hl, hset]
      · simp
      · simp [hi]
      · intro j hj
        simp [List.getElem?_set, Ne.symm hj]
      · intro m hm
        simp [hl, hm]
      · simp [hl]

/-- Witness of C20 on `crowdedStore`, where alice holds `cred2`, `cred0`,
`cred0`: updating with `cred1` (the id of `cred0`) rewrites index 1 only. -/
theorem updateCredential_one_slot_witness :
    (UpdateCredential crowdedStore alice cred1).1 = none ∧
    (UpdateCredential crowdedStore alice cred1).2.users alice
      = some { ID := alice, Name := alice, DisplayName := alice,
               Credentials := [cred2, cred1, cred0] } ∧
    (UpdateCredential crowdedStore alice cred1).2.sessions = crowdedStore.sessions :=
  have h : (UpdateCredential crowdedStore alice cred1).1 = none := by
    simp [UpdateCredential, crowdedStore, runOps, StoreOp.apply, AddCredential, CreateUser,
      NewStorage, updateLoop, cred0, cred1, cred2]
  ⟨h,
   by
    simp [UpdateCredential, crowdedStore, runOps, StoreOp.apply, AddCredential, CreateUser,
      NewStorage, updateLoop, cred0, cred1, cred2],
   let ⟨_, _, hrest⟩ := updateCredential_one_slot crowdedStore alice cred1 h
   hrest.2.2.2.2.2.2.2.2.2⟩

/-! ### The save step of RegisterFinish -/

/-- C19. The "Failed to save credential" branch of `RegisterFinish` is not
reached: whenever `GetUser(name)` finds an identity, `AddCredential(name, c)`
on the same storage returns no error for every credential `c`; hence no
`RegisterFinish` call answers "Failed to save credential", and when an identity
and a session exist for the non-empty name and the engine returns `c`, the
handler answers with the success object and leaves the storage that
`AddCredential` followed by `DeleteSession` produce: `c` appended, no session. -/
theorem registerFinish_save_never_fails (e : Engine) (st : Storage) (r : Request) :
    (∀ name u c, GetUser st name = some u → (AddCredential st name c).1 = none) ∧
    (RegisterFinish e st r).response
      ≠ .httpError "Failed to save credential" StatusInternalServerError ∧
    (∀ u sess c, finishUsername r ≠ [] → GetUser st (finishUsername r) = some u →
      GetSession st (finishUsername r) = some sess →
      e.FinishRegistration u sess r = .ok c →
      (RegisterFinish e st r).response = .registrationSuccessful ∧
      (RegisterFinish e st r).storage
        = DeleteSession (AddCredential st (finishUsername r) c).2 (finishUsername r) ∧
      (RegisterFinish e st r).storage.users (finishUsername r)
        = some { u with Credentials := u.Credentials ++ [c] } ∧
      GetSession (RegisterFinish e st r).storage (finishUsername r) = none) := by
  refine ⟨?_, ?_, ?_⟩
  · intro name u c hu
    simp only [GetUser] at hu
    simp [AddCredential, hu]
  · unfold RegisterFinish
    simp only [GetUser, GetSession]
    by_cases hne : finishUsername r = []
    · simp [hne, StatusBadRequest, StatusInternalServerError]
    · cases hu : st.users (finishUsername r) with
      | none => simp [hne, StatusNotFound, StatusInternalServerError]
      | some u =>
        cases hs : st.sessions (finishUsername r) with
        | none => simp [hne, StatusBadRequest, StatusInternalServerError]
        | some sess =>
          cases he : e.FinishRegistration u sess r with
          | error err => simp [hne, he, StatusBadRequest, StatusInternalServerError]
          | ok c => simp [hne, he, AddCredential, hu]
  · intro u sess c hne hu hs he
    simp only [GetUser] at hu
    simp only [GetSession] at hs
    simp [RegisterFinish, GetUser, GetSession, AddCredential, DeleteSession, hne, hu, hs, he]

/-- Witness of C19 on `pendingStore`: alice is found, the engine returns
`cred0`, and `RegisterFinish` appends it and succeeds. -/
theorem registerFinish_save_never_fails_witness :
    (AddCredential pendingStore alice cred0).1 = none ∧
    (RegisterFinish acceptingEngine pendingStore finishRequest).response
      = .registrationSuccessful :=
  have hu : GetUser pendingStore alice
      = some { ID := alice, Name := alice, DisplayName := alice, Credentials := [cred0] } := by
    simp [alice, pendingStore, GetUser, SaveSession, AddCredential, CreateUser, NewStorage]
  have hs : GetSession pendingStore (finishUsername finishRequest) = some sess0 := by
    simp [finishUsername, finishRequest, alice, pendingStore, GetSession, SaveSession]
  ⟨(registerFinish_save_never_fails acceptingEngine pendingStore finishRequest).1
      alice _ cred0 hu,
   ((registerFinish_save_never_fails acceptingEngine pendingStore finishRequest).2.2
      _ sess0 cred0 (by decide) hu hs rfl).1⟩

/-! ### Finish for an unknown principal -/

/-- C11, as claimed, fails for the empty name: `NewStorage` stores no identity
for it, yet a Finish request that names nobody is answered "Username is
required" (status 400), the handlers' signal for a missing field, and not
"User not found" (status 404). -/
theorem finish_unknown_principal_counterexample :
    finishUsername anonymousRequest = [] ∧
    GetUser NewStorage (finishUsername anonymousRequest) = none ∧
    (LoginFinish acceptingEngine NewStorage anonymousRequest).response
      = .httpError "Username is required" StatusBadRequest ∧
    (RegisterFinish acceptingEngine NewStorage anonymousRequest).response
      = .httpError "Username is required" StatusBadRequest ∧
    (LoginFinish acceptingEngine NewStorage anonymousRequest).response
      ≠ .httpError "User not found" StatusNotFound ∧
    (RegisterFinish acceptingEngine NewStorage anonymousRequest).response
      ≠ .httpError "User not found" StatusNotFound := by
  simp [LoginFinish, RegisterFinish, finishUsername, anonymousRequest, GetUser, NewStorage,
    StatusBadRequest, StatusNotFound]

/-- C11, amended. Finish for an unknown principal fails before verification:
when no identity is stored for the name of the request (a session may or may
not be stored for it), `LoginFinish` and `RegisterFinish` perform no engine
call and return the storage unchanged; for a non-empty name they answer "User
not found" (status 404), for the empty name "Username is required" (status
400). -/
theorem finish_unknown_principal (e : Engine) (st : Storage) (r : Request)
    (hu : GetUser st (finishUsername r) = none) :
    (finishUsername r ≠ [] →
      LoginFinish e st r = ⟨.httpError "User not found" StatusNotFound, st, []⟩ ∧
      RegisterFinish e st r = ⟨.httpError "User not found" StatusNotFound, st, []⟩) ∧
    (finishUsername r = [] →
      LoginFinish e st r = ⟨.httpError "Username is required" StatusBadRequest, st, []⟩ ∧
      RegisterFinish e st r = ⟨.httpError "Username is required" StatusBadRequest, st, []⟩) ∧
    (LoginFinish e st r).calls = [] ∧ (LoginFinish e st r).storage = st ∧
    (RegisterFinish e st r).calls = [] ∧ (RegisterFinish e st r).storage = st := by
  have hne : finishUsername r ≠ [] →
      LoginFinish e st r = ⟨.httpError "User not found" StatusNotFound, st, []⟩ ∧
      RegisterFinish e st r = ⟨.httpError "User not found" StatusNotFound, st, []⟩ := by
    intro h
    simp [LoginFinish, RegisterFinish, h, hu]
  have hempty : finishUsername r = [] →
      LoginFinish e st r = ⟨.httpError "Username is required" StatusBadRequest, st, []⟩ ∧
      RegisterFinish e st r
        = ⟨.httpError "Username is required" StatusBadRequest, st, []⟩ := by
    intro h
    simp [LoginFinish, RegisterFinish, h]
  refine ⟨hne, hempty, ?_⟩
  by_cases h : finishUsername r = []
  · rw [(hempty h).1, (hempty h).2]
    exact ⟨rfl, rfl, rfl, rfl⟩
  · rw [(hne h).1, (hne h).2]
    exact ⟨rfl, rfl, rfl, rfl⟩

/-- Witness of amended C11: bob has a session but no identity in a storage
that knows alice only; both Finish handlers answer "User not found" and the
accepting engine is never called. -/
theorem finish_unknown_principal_witness :
    GetSession (SaveSession pendingStore bob sess1) bob = some sess1 ∧
    (LoginFinish acceptingEngine (SaveSession pendingStore bob sess1) bobFinishRequest).response
      = .httpError "User not found" StatusNotFound ∧
    (RegisterFinish acceptingEngine (SaveSession pendingStore bob sess1)
        bobFinishRequest).calls = [] :=
  have hu : GetUser (SaveSession pendingStore bob sess1) (finishUsername bobFinishRequest)
      = none := by
    simp [finishUsername, bobFinishRequest, bob, alice, pendingStore, GetUser, SaveSession,
      AddCredential, CreateUser, NewStorage]
  have h := finish_unknown_principal acceptingEngine (SaveSession pendingStore bob sess1)
    bobFinishRequest hu
  ⟨by simp [GetSession, SaveSession], by rw [(h.1 (by decide)).1], h.2.2.2.2.1⟩

/-! ### Sign-count persistence -/

/-- C12. Sign-count persistence failure is non-fatal: when an identity `u` and
a session exist for the non-empty name of the request (the names for which the
handler reaches the engine), and the engine's `FinishLogin` on that identity
and session returns a credential whose id none of the credentials of `u`
carries, then `UpdateCredential` fails, and `LoginFinish` nevertheless answers
with the success object carrying the name and the id of `u`, leaves the users
map (so the credential sequence of `u`) unchanged, and deletes the session;
the engine was called once, with `u` and the session. -/
theorem loginFinish_update_failure_nonfatal (e : Engine) (st : Storage) (r : Request)
    (u : User) (sess : SessionData) (c : Credential)
    (hne : finishUsername r ≠ [])
    (hu : GetUser st (finishUsername r) = some u)
    (hs : GetSession st (finishUsername r) = some sess)
    (he : e.FinishLogin u sess r = .ok c)
    (hmiss : ∀ x ∈ u.Credentials, x.ID ≠ c.ID) :
    (UpdateCredential st (finishUsername r) c).1 = some "Credential not found" ∧
    (LoginFinish e st r).response = .loginSuccessful (finishUsername r) u.ID ∧
    (LoginFinish e st r).storage.users = st.users ∧
    GetUser (LoginFinish e st r).storage (finishUsername r) = some u ∧
    GetSession (LoginFinish e st r).storage (finishUsername r) = none ∧
    (LoginFinish e st r).storage = DeleteSession st (finishUsername r) ∧
    (LoginFinish e st r).calls = [.FinishLogin u sess] := by
  simp only [GetUser] at hu
  simp only [GetSession] at hs
  have hl : updateLoop c u.Credentials = none := (updateLoop_eq_none_iff c u.Credentials).2 hmiss
  simp [LoginFinish, GetUser, GetSession, UpdateCredential, DeleteSession, hne, hu, hs, he, hl]

/-- Witness of C12 on `pendingStore`: the engine returns `cred2`, which alice
does not hold; login succeeds, alice keeps `[cred0]`, the session is gone. -/
theorem loginFinish_update_failure_nonfatal_witness :
    finishUsername finishRequest ≠ [] ∧
    (LoginFinish strayEngine pendingStore finishRequest).response
      = .loginSuccessful alice alice ∧
    GetUser (LoginFinish strayEngine pendingStore finishRequest).storage alice
      = some { ID := alice, Name := alice, DisplayName := alice, Credentials := [cred0] } ∧
    GetSession (LoginFinish strayEngine pendingStore finishRequest).storage alice = none :=
  have hne : finishUsername finishRequest ≠ [] := by decide
  have hu : GetUser pendingStore (finishUsername finishRequest)
      = some { ID := alice, Name := alice, DisplayName := alice, Credentials := [cred0] } := by
    simp [finishUsername, finishRequest, alice, pendingStore, GetUser, SaveSession,
      AddCredential, CreateUser, NewStorage]
  have hs : GetSession pendingStore (finishUsername finishRequest) = some sess0 := by
    simp [finishUsername, finishRequest, alice, pendingStore, GetSession, SaveSession]
  have h := loginFinish_update_failure_nonfatal strayEngine pendingStore finishRequest _ sess0
    cred2 hne hu hs rfl (by simp [cred0, cred2])
  ⟨hne, h.2.1, h.2.2.2.1, h.2.2.2.2.1⟩

/-! ### A failing RegisterBegin -/

/-- C15. A failing BeginRegistration commits no session: with an empty name
`RegisterBegin` answers "Username is required" (status 400), performs no engine
call and returns the storage unchanged; with a non-empty name and an engine
whose challenge generation fails it answers "Failed to begin registration"
(status 500), leaves the sessions map as it was (a pending session included),
leaves every other name's identity alone, and for the name itself either keeps
the stored identity or, when there was none, stores a new one with an empty
credential sequence. -/
theorem registerBegin_failure_commits_no_session (e : Engine) (st : Storage) (r : Request) :
    (r.body = some [] →
      RegisterBegin e st r = ⟨.httpError "Username is required" StatusBadRequest, st, []⟩) ∧
    (∀ name err, r.body = some name → name ≠ [] →
      e.BeginRegistration (registrant st name) = .error err →
      (RegisterBegin e st r).response
        = .httpError "Failed to begin registration" StatusInternalServerError ∧
      (RegisterBegin e st r).storage.sessions = st.sessions ∧
      (∀ m, m ≠ name → (RegisterBegin e st r).storage.users m = st.users m) ∧
      (∀ u, st.users name = some u → (RegisterBegin e st r).storage = st) ∧
      (st.users name = none →
        (RegisterBegin e st r).storage.users name
          = some { ID := name, Name := name, DisplayName := name, Credentials := [] })) := by
  constructor
  · intro hb
    simp [RegisterBegin, hb]
  · intro name err hb hne he
    unfold registrant at he
    unfold RegisterBegin
    simp only [hb, hne, if_false]
    cases hu : GetUser st name with
    | none =>
      simp only [hu, CreateUser] at he ⊢
      simp only [GetUser] at hu
      simp only [he]
      refine ⟨trivial, trivial, ?_, ?_, ?_⟩
      · intro m hm
        simp [hm]
      · intro u hu'
        simp [hu] at hu'
      · intro _
        simp
    | some u =>
      simp only [hu] at he ⊢
      simp only [GetUser] at hu
      simp only [he]
      refine ⟨trivial, trivial, ?_, ?_, ?_⟩
      · intro m _
        trivial
      · intro _ _
        trivial
      · intro hn
        simp [hu] at hn

/-- Witness of C15: the rejecting engine fails the challenge; on `pendingStore`
the session `sess0` of alice stays and the storage is unchanged, on
`NewStorage` alice is created without credentials and no session appears. -/
theorem registerBegin_failure_commits_no_session_witness :
    (RegisterBegin rejectingEngine pendingStore beginRequest).storage = pendingStore ∧
    GetSession pendingStore alice = some sess0 ∧
    (RegisterBegin rejectingEngine NewStorage beginRequest).storage.sessions
      = NewStorage.sessions ∧
    (RegisterBegin rejectingEngine NewStorage beginRequest).storage.users alice
      = some { ID := alice, Name := alice, DisplayName := alice, Credentials := [] } :=
  have hne : alice ≠ [] := by decide
  have h1 := (registerBegin_failure_commits_no_session rejectingEngine pendingStore
    beginRequest).2 alice "no challenge" rfl hne rfl
  have h2 := (registerBegin_failure_commits_no_session rejectingEngine NewStorage
    beginRequest).2 alice "no challenge" rfl hne rfl
  ⟨h1.2.2.2.1 { ID := alice, Name := alice, DisplayName := alice, Credentials := [cred0] }
      (by simp [pendingStore, SaveSession, AddCredential, CreateUser]),
   by simp [GetSession, pendingStore, SaveSession],
   h2.2.1,
   h2.2.2.2.2 rfl⟩

/-! ### What one handler call may change -/

theorem registerBegin_frame (e : Engine) (st : Storage) (r : Request) (m : GoString)
    (hm : ∀ n, r.body = some n → m ≠ n) :
    (RegisterBegin e st r).storage.users m = st.users m ∧
    (RegisterBegin e st r).storage.sessions m = st.sessions m := by
  unfold RegisterBegin
  cases hb : r.body with
  | none => simp
  | some n =>
    have hmn := hm n hb
    by_cases hn : n = []
    · simp [hn]
    · simp only [hn, if_false]
      cases hu : GetUser st n with
      | none =>
        simp only [CreateUser]
        split <;> simp [SaveSession, hmn]
      | some u =>
        simp only []
        split <;> simp [SaveSession, hmn]

theorem registerFinish_frame (e : Engine) (st : Storage) (r : Request) (m : GoString)
    (hm : m ≠ finishUsername r) :
    (RegisterFinish e st r).storage.users m = st.users m ∧
    (RegisterFinish e st r).storage.sessions m = st.sessions m := by
  unfold RegisterFinish
  simp only [GetUser, GetSession]
  by_cases hne : finishUsername r = []
  · simp [hne]
  · cases hu : st.users (finishUsername r) with
    | none => simp [hne]
    | some u =>
      cases hs : st.sessions (finishUsername r) with
      | none => simp [hne]
      | some sess =>
        cases he : e.FinishRegistration u sess r with
        | error err => simp [hne, he]
        | ok c => simp [hne, he, hu, AddCredential, DeleteSession, hm]

theorem loginBegin_frame (e : Engine) (st : Storage) (r : Request) (m : GoString)
    (hm : ∀ n, r.body = some n → m ≠ n) :
    (LoginBegin e st r).storage.users m = st.users m ∧
    (LoginBegin e st r).storage.sessions m = st.sessions m := by
  unfold LoginBegin
  cases hb : r.body with
  | none => simp
  | some n =>
    have hmn := hm n hb
    by_cases hn : n = []
    · simp [hn]
    · simp only [hn, if_false]
      cases hu : GetUser st n with
      | none => simp
      | some u =>
        simp only []
        by_cases hc : u.Credentials.length = 0
        · simp [hc]
        · simp only [hc, if_false]
          split <;> simp [SaveSession, hmn]

theorem updateCredential_users_frame (st : Storage) (n m : GoString) (c : Credential)
    (hm : m ≠ n) :
    (UpdateCredential st n c).2.users m = st.users m ∧
    (UpdateCredential st n c).2.sessions = st.sessions := by
  unfold UpdateCredential
  cases hu : st.users n with
  | none => simp
  | some u =>
    cases hl : updateLoop c u.Credentials with
    | none => simp [hl]
    | some l => simp [hl, hm]

theorem loginFinish_frame (e : Engine) (st : Storage) (r : Request) (m : GoString)
    (hm : m ≠ finishUsername r) :
    (LoginFinish e st r).storage.users m = st.users m ∧
    (LoginFinish e st r).storage.sessions m = st.sessions m := by
  unfold LoginFinish
  simp only [GetUser, GetSession]
  by_cases hne : finishUsername r = []
  · simp [hne]
  · cases hu : st.users (finishUsername r) with
    | none => simp [hne]
    | some u =>
      cases hs : st.sessions (finishUsername r) with
      | none => simp [hne]
      | some sess =>
        cases he : e.FinishLogin u sess r with
        | error err => simp [hne, he]
        | ok c =>
          have hf := updateCredential_users_frame st (finishUsername r) m c hm
          simp [hne, he, DeleteSession, hm, hf.1, hf.2]

/-- C17. Principals are independent: for each of the four handlers, every
engine, every storage and every request, the identity record and the session
stored for any name other than the one the call is made for are the same after
the call as before it. -/
theorem principals_independent (c : HandlerCall) (st : Storage) (m : GoString)
    (hm : m ≠ c.username) :
    (c.serve st).storage.users m = st.users m ∧
    (c.serve st).storage.sessions m = st.sessions m := by
  obtain ⟨ep, e, r⟩ := c
  cases ep with
  | RegisterBegin =>
    refine registerBegin_frame e st r m ?_
    intro n hn
    simpa [HandlerCall.username, hn] using hm
  | RegisterFinish =>
    exact registerFinish_frame e st r m (by simpa [HandlerCall.username] using hm)
  | LoginBegin =>
    refine loginBegin_frame e st r m ?_
    intro n hn
    simpa [HandlerCall.username, hn] using hm
  | LoginFinish =>
    exact loginFinish_frame e st r m (by simpa [HandlerCall.username] using hm)

/-- Witness of C17 on `sharedStore`: a successful `RegisterFinish` for alice
leaves bob's identity and bob's pending session as they were. -/
theorem principals_independent_witness :
    bob ≠ alice ∧
    (RegisterFinish acceptingEngine sharedStore finishRequest).response
      = .registrationSuccessful ∧
    (RegisterFinish acceptingEngine sharedStore finishRequest).storage.users bob
      = some { ID := bob, Name := bob, DisplayName := bob, Credentials := [] } ∧
    (RegisterFinish acceptingEngine sharedStore finishRequest).storage.sessions bob
      = some sess1 :=
  have hm : bob ≠ alice := by decide
  have h := principals_independent ⟨.RegisterFinish, acceptingEngine, finishRequest⟩
    sharedStore bob hm
  ⟨hm,
   by
    simp [RegisterFinish, finishUsername, finishRequest, alice, bob, sharedStore, pendingStore,
      acceptingEngine, GetUser, GetSession, SaveSession, AddCredential, CreateUser, NewStorage],
   h.1.trans (by simp [sharedStore, SaveSession, CreateUser]),
   h.2.trans (by simp [sharedStore, SaveSession])⟩

/-! ### Identity ids along handler calls -/

theorem userStep_update (st : Storage) (n k : GoString) (u : User) (creds : List Credential)
    (hu : st.users n = some u) :
    userStep k (st.users k)
      (if k = n then some { u with Credentials := creds } else st.users k) := by
  by_cases hk : k = n
  · subst hk
    simp only [if_true]
    exact Or.inr (Or.inl ⟨u, creds, hu, rfl⟩)
  · simp only [hk, if_false]
    exact Or.inl rfl

theorem registerBegin_userStep (e : Engine) (st : Storage) (r : Request) (k : GoString) :
    userStep k (st.users k) ((RegisterBegin e st r).storage.users k) := by
  unfold RegisterBegin
  cases hb : r.body with
  | none => exact Or.inl rfl
  | some n =>
    by_cases hn : n = []
    · simp only [hn, if_true]
      exact Or.inl rfl
    · simp only [hn, if_false]
      cases hu : GetUser st n with
      | none =>
        simp only [GetUser] at hu
        have hstep : userStep k (st.users k)
            (if k = n then some { ID := n, Name := n, DisplayName := n, Credentials := [] }
              else st.users k) := by
          by_cases hk : k = n
          · subst hk
            simp only [if_true]
            exact Or.inr (Or.inr ⟨hu, hn, rfl⟩)
          · simp only [hk, if_false]
            exact Or.inl rfl
        simp only [CreateUser]
        split <;> simpa [SaveSession] using hstep
      | some u =>
        simp only []
        split <;> exact Or.inl rfl

theorem registerFinish_userStep (e : Engine) (st : Storage) (r : Request) (k : GoString) :
    userStep k (st.users k) ((RegisterFinish e st r).storage.users k) := by
  unfold RegisterFinish
  simp only [GetUser, GetSession]
  by_cases hne : finishUsername r = []
  · simp only [hne, if_true]
    exact Or.inl rfl
  · cases hu : st.users (finishUsername r) with
    | none =>
      simp only [hne, if_false]
      exact Or.inl rfl
    | some u =>
      cases hs : st.sessions (finishUsername r) with
      | none =>
        simp only [hne, if_false]
        exact Or.inl rfl
      | some sess =>
        cases he : e.FinishRegistration u sess r with
        | error err =>
          simp only [hne, if_false, he]
          exact Or.inl rfl
        | ok c =>
          have hstep := userStep_update st (finishUsername r) k u (u.Credentials ++ [c]) hu
          simpa [hne, he, hu, AddCredential, DeleteSession] using hstep

theorem loginBegin_users (e : Engine) (st : Storage) (r : Request) :
    (LoginBegin e st r).storage.users = st.users := by
  unfold LoginBegin
  cases hb : r.body with
  | none => rfl
  | some n =>
    by_cases hn : n = []
    · simp [hn]
    · simp only [hn, if_false]
      cases hu : GetUser st n with
      | none => rfl
      | some u =>
        simp only []
        by_cases hc : u.Credentials.length = 0
        · simp [hc]
        · simp only [hc, if_false]
          split <;> rfl

theorem updateCredential_userStep (st : Storage) (n k : GoString) (c : Credential) :
    userStep k (st.users k) ((UpdateCredential st n c).2.users k) := by
  unfold UpdateCredential
  cases hu : st.users n with
  | none => exact Or.inl rfl
  | some u =>
    cases hl : updateLoop c u.Credentials with
    | none =>
      simp only [hl]
      exact Or.inl rfl
    | some l =>
      simp only [hl]
      exact userStep_update st n k u l hu

theorem loginFinish_userStep (e : Engine) (st : Storage) (r : Request) (k : GoString) :
    userStep k (st.users k) ((LoginFinish e st r).storage.users k) := by
  unfold LoginFinish
  simp only [GetUser, GetSession]
  by_cases hne : finishUsername r = []
  · simp only [hne, if_true]
    exact Or.inl rfl
  · cases hu : st.users (finishUsername r) with
    | none =>
      simp only [hne, if_false]
      exact Or.inl rfl
    | some u =>
      cases hs : st.sessions (finishUsername r) with
      | none =>
        simp only [hne, if_false]
        exact Or.inl rfl
      | some sess =>
        cases he : e.FinishLogin u sess r with
        | error err =>
          simp only [hne, if_false, he]
          exact Or.inl rfl
        | ok c =>
          simp only [hne, if_false, he, DeleteSession]
          exact updateCredential_userStep st (finishUsername r) k c

theorem serve_userStep (c : HandlerCall) (st : Storage) (k : GoString) :
    userStep k (st.users k) ((c.serve st).storage.users k) := by
  obtain ⟨ep, e, r⟩ := c
  cases ep with
  | RegisterBegin => exact registerBegin_userStep e st r k
  | RegisterFinish => exact registerFinish_userStep e st r k
  | LoginBegin =>
    simp only [HandlerCall.serve, loginBegin_users]
    exact Or.inl rfl
  | LoginFinish => exact loginFinish_userStep e st r k

theorem idsFromNames_serve (c : HandlerCall) (st : Storage) (h : idsFromNames st) :
    idsFromNames (c.serve st).storage := by
  intro k v hv
  rcases serve_userStep c st k with h1 | ⟨u, creds, hb, ha⟩ | ⟨_, _, ha⟩
  · rw [h1] at hv
    exact h k v hv
  · rw [ha, Option.some.injEq] at hv
    subst hv
    exact h k u hb
  · rw [ha, Option.some.injEq] at hv
    subst hv
    exact ⟨rfl, rfl, rfl⟩

theorem idsFromNames_serveAll (calls : List HandlerCall) (st : Storage)
    (h : idsFromNames st) : idsFromNames (serveAll st calls) := by
  induction calls generalizing st with
  | nil => exact h
  | cons c cs ih => exact ih (c.serve st).storage (idsFromNames_serve c st h)

theorem identity_kept_serve (c : HandlerCall) (st : Storage) (k : GoString) (u : User)
    (hu : st.users k = some u) :
    ∃ v, (c.serve st).storage.users k = some v ∧ v.ID = u.ID ∧ v.Name = u.Name ∧
      v.DisplayName = u.DisplayName := by
  rcases serve_userStep c st k with h1 | ⟨w, creds, hb, ha⟩ | ⟨hb, _, _⟩
  · exact ⟨u, by rw [h1, hu], rfl, rfl, rfl⟩
  · rw [hu, Option.some.injEq] at hb
    subst hb
    exact ⟨_, ha, rfl, rfl, rfl⟩
  · rw [hu] at hb
    exact absurd hb (by simp)

theorem identity_kept_serveAll (calls : List HandlerCall) (st : Storage) (k : GoString)
    (u : User) (hu : st.users k = some u) :
    ∃ v, (serveAll st calls).users k = some v ∧ v.ID = u.ID ∧ v.Name = u.Name ∧
      v.DisplayName = u.DisplayName := by
  induction calls generalizing st u with
  | nil => exact ⟨u, hu, rfl, rfl, rfl⟩
  | cons c cs ih =>
    obtain ⟨v, hv, h1, h2, h3⟩ := identity_kept_serve c st k u hu
    obtain ⟨w, hw, g1, g2, g3⟩ := ih (c.serve st).storage v hv
    exact ⟨w, hw, g1.trans h1, g2.trans h2, g3.trans h3⟩

theorem registerBegin_existing_users (e : Engine) (st : Storage) (r : Request)
    (name : GoString) (u : User) (hr : r.body = some name) (hu : st.users name = some u) :
    (RegisterBegin e st r).storage.users = st.users := by
  unfold RegisterBegin
  simp only [hr, GetUser, hu]
  by_cases hn : name = []
  · simp [hn]
  · simp only [hn, if_false]
    split <;> rfl

/-- C14. Identity ids are stable and unique: in every storage reached from
`NewStorage` by any sequence of handler calls (any routes, engines and
requests), (1) every identity stored under a key `k` has `Name = k`,
`DisplayName = k` and `ID` equal to the bytes of `k`; (2) an identity present
in that storage is still present after any further calls, with the same id and
names; (3) identities stored under distinct keys have distinct ids; and (4) a
`RegisterBegin` for a name that already has an identity leaves the users map as
it is, so the identity is neither recreated nor stripped of credentials. -/
theorem identity_ids_stable_unique (calls : List HandlerCall) :
    idsFromNames (serveAll NewStorage calls) ∧
    (∀ more k u, (serveAll NewStorage calls).users k = some u →
      ∃ v, (serveAll (serveAll NewStorage calls) more).users k = some v ∧
        v.ID = u.ID ∧ v.Name = u.Name ∧ v.DisplayName = u.DisplayName) ∧
    (∀ k1 k2 u1 u2, k1 ≠ k2 → (serveAll NewStorage calls).users k1 = some u1 →
      (serveAll NewStorage calls).users k2 = some u2 → u1.ID ≠ u2.ID) ∧
    (∀ e r name u, r.body = some name → (serveAll NewStorage calls).users name = some u →
      (RegisterBegin e (serveAll NewStorage calls) r).storage.users
        = (serveAll NewStorage calls).users) := by
  have hinv : idsFromNames (serveAll NewStorage calls) :=
    idsFromNames_serveAll calls NewStorage (fun _ _ h => by simp [NewStorage] at h)
  refine ⟨hinv, ?_, ?_, ?_⟩
  · intro more k u hu
    exact identity_kept_serveAll more _ k u hu
  · intro k1 k2 u1 u2 hk h1 h2 hid
    apply hk
    rw [← (hinv k1 u1 h1).2.2, ← (hinv k2 u2 h2).2.2]
    exact hid
  · intro e r name u hr hu
    exact registerBegin_existing_users e _ r name u hr hu

/-- Witness of C14: after `RegisterBegin` and `RegisterFinish` for alice she is
stored with her name's bytes as id and the credential `cred0`, and a further
`RegisterBegin` for her leaves the users map as it is. -/
theorem identity_ids_stable_unique_witness :
    (serveAll NewStorage
        [⟨.RegisterBegin, acceptingEngine, beginRequest⟩,
          ⟨.RegisterFinish, acceptingEngine, finishRequest⟩]).users alice
      = some { ID := alice, Name := alice, DisplayName := alice, Credentials := [cred0] } ∧
    (RegisterBegin acceptingEngineNext
        (serveAll NewStorage
          [⟨.RegisterBegin, acceptingEngine, beginRequest⟩,
            ⟨.RegisterFinish, acceptingEngine, finishRequest⟩]) beginRequest).storage.users
      = (serveAll NewStorage
          [⟨.RegisterBegin, acceptingEngine, beginRequest⟩,
            ⟨.RegisterFinish, acceptingEngine, finishRequest⟩]).users :=
  have h : (serveAll NewStorage
        [⟨.RegisterBegin, acceptingEngine, beginRequest⟩,
          ⟨.RegisterFinish, acceptingEngine, finishRequest⟩]).users alice
      = some { ID := alice, Name := alice, DisplayName := alice, Credentials := [cred0] } := by
    simp [serveAll, HandlerCall.serve, RegisterBegin, RegisterFinish, finishUsername,
      beginRequest, finishRequest, alice, acceptingEngine, GetUser, GetSession, SaveSession,
      DeleteSession, AddCredential, CreateUser, NewStorage]
  ⟨h, (identity_ids_stable_unique _).2.2.2 acceptingEngineNext beginRequest alice _ rfl h⟩

/-! ### Registration followed by login -/

/-- C13. End-to-end happy path: for a non-empty name, an id, and an engine that
accepts every step (session `s1` for registration, credential `c` on
`FinishRegistration`, session `s3` for login, and on `FinishLogin` a credential
`c'` with the id of `c`), the sequence `CreateUser`, `RegisterBegin`,
`RegisterFinish`, `LoginBegin`, `LoginFinish` from `NewStorage` succeeds at
every step: `RegisterBegin` answers its challenge and stores `s1`; after
`RegisterFinish` the identity holds exactly `[c]` and no session is stored;
`LoginBegin` hands the engine the identity with exactly that credential and
stores `s3`; `LoginFinish` reports the name and the id given at creation, and
afterwards the identity holds exactly `[c']` and no session is stored. -/
theorem happy_path (e : Engine) (name : GoString) (id : List Byte) (r1 r2 r3 r4 : Request)
    (o1 o3 : ChallengeOptions) (s1 s3 : SessionData) (c c' : Credential)
    (hne : name ≠ [])
    (hr1 : r1.body = some name) (hr2 : finishUsername r2 = name)
    (hr3 : r3.body = some name) (hr4 : finishUsername r4 = name)
    (h1 : e.BeginRegistration
      { ID := id, Name := name, DisplayName := name, Credentials := [] } = .ok (o1, s1))
    (h2 : e.FinishRegistration
      { ID := id, Name := name, DisplayName := name, Credentials := [] } s1 r2 = .ok c)
    (h3 : e.BeginLogin
      { ID := id, Name := name, DisplayName := name, Credentials := [c] } = .ok (o3, s3))
    (h4 : e.FinishLogin
      { ID := id, Name := name, DisplayName := name, Credentials := [c] } s3 r4 = .ok c')
    (hid : c'.ID = c.ID) :
    (scenarioRegisterBegin e name id r1).response = .challenge o1 ∧
    GetSession (scenarioRegisterBegin e name id r1).storage name = some s1 ∧
    (scenarioRegisterFinish e name id r1 r2).response = .registrationSuccessful ∧
    GetUser (scenarioRegisterFinish e name id r1 r2).storage name
      = some { ID := id, Name := name, DisplayName := name, Credentials := [c] } ∧
    GetSession (scenarioRegisterFinish e name id r1 r2).storage name = none ∧
    (scenarioLoginBegin e name id r1 r2 r3).response = .challenge o3 ∧
    (scenarioLoginBegin e name id r1 r2 r3).calls
      = [.BeginLogin { ID := id, Name := name, DisplayName := name, Credentials := [c] }] ∧
    GetSession (scenarioLoginBegin e name id r1 r2 r3).storage name = some s3 ∧
    (scenarioLoginFinish e name id r1 r2 r3 r4).response = .loginSuccessful name id ∧
    GetUser (scenarioLoginFinish e name id r1 r2 r3 r4).storage name
      = some { ID := id, Name := name, DisplayName := name, Credentials := [c'] } ∧
    GetSession (scenarioLoginFinish e name id r1 r2 r3 r4).storage name = none := by
  have e1 : scenarioRegisterBegin e name id r1
      = ⟨.challenge o1, SaveSession (CreateUser NewStorage name id).2 name s1,
          [.BeginRegistration
            { ID := id, Name := name, DisplayName := name, Credentials := [] }]⟩ := by
    simp [scenarioRegisterBegin, RegisterBegin, hr1, hne, GetUser, CreateUser, h1]
  have e2 : scenarioRegisterFinish e name id r1 r2
      = ⟨.registrationSuccessful,
          DeleteSession (AddCredential
            (SaveSession (CreateUser NewStorage name id).2 name s1) name c).2 name,
          [.FinishRegistration
            { ID := id, Name := name, DisplayName := name, Credentials := [] } s1]⟩ := by
    simp [scenarioRegisterFinish, e1, RegisterFinish, hr2, hne, GetUser, GetSession,
      CreateUser, SaveSession, AddCredential, h2]
  have u2 : GetUser (DeleteSession (AddCredential
        (SaveSession (CreateUser NewStorage name id).2 name s1) name c).2 name) name
      = some { ID := id, Name := name, DisplayName := name, Credentials := [c] } := by
    simp [GetUser, DeleteSession, AddCredential, SaveSession, CreateUser]
  have e3 : scenarioLoginBegin e name id r1 r2 r3
      = ⟨.challenge o3,
          SaveSession (DeleteSession (AddCredential
            (SaveSession (CreateUser NewStorage name id).2 name s1) name c).2 name) name s3,
          [.BeginLogin
            { ID := id, Name := name, DisplayName := name, Credentials := [c] }]⟩ := by
    simp [scenarioLoginBegin, e2, LoginBegin, hr3, hne, u2, h3]
  have e4 : scenarioLoginFinish e name id r1 r2 r3 r4
      = ⟨.loginSuccessful name id,
          DeleteSession (UpdateCredential
            (SaveSession (DeleteSession (AddCredential
              (SaveSession (CreateUser NewStorage name id).2 name s1) name c).2 name)
              name s3) name c').2 name,
          [.FinishLogin
            { ID := id, Name := name, DisplayName := name, Credentials := [c] } s3]⟩ := by
    simp [scenarioLoginFinish, e3, LoginFinish, hr4, hne, GetUser, GetSession, CreateUser,
      SaveSession, AddCredential, DeleteSession, h4]
  rw [e4, e3, e2, e1]
  refine ⟨rfl, ?_, rfl, u2, ?_, rfl, rfl, ?_, rfl, ?_, ?_⟩
  · simp [GetSession, SaveSession]
  · simp [GetSession, DeleteSession]
  · simp [GetSession, SaveSession]
  · simp [GetUser, DeleteSession, UpdateCredential, AddCredential, SaveSession, CreateUser,
      updateLoop, hid]
  · simp [GetSession, DeleteSession]

/-- Witness of C13 for alice with the accepting engine: registration stores
`cred0`, login replaces it by `cred1`, and no session is left. -/
theorem happy_path_witness :
    (scenarioLoginFinish acceptingEngine alice alice beginRequest finishRequest beginRequest
        finishRequest).response = .loginSuccessful alice alice ∧
    GetUser (scenarioLoginFinish acceptingEngine alice alice beginRequest finishRequest
        beginRequest finishRequest).storage alice
      = some { ID := alice, Name := alice, DisplayName := alice, Credentials := [cred1] } ∧
    GetSession (scenarioLoginFinish acceptingEngine alice alice beginRequest finishRequest
        beginRequest finishRequest).storage alice = none :=
  have h := happy_path acceptingEngine alice alice beginRequest finishRequest beginRequest
    finishRequest ⟨[42, 43]⟩ ⟨[42, 43]⟩ sess0 sess0 cred0 cred1 (by decide) rfl (by decide) rfl
    (by decide) rfl rfl rfl rfl (by decide)
  ⟨h.2.2.2.2.2.2.2.2.1, h.2.2.2.2.2.2.2.2.2.1, h.2.2.2.2.2.2.2.2.2.2⟩

end PasskeyDemo
